import Mathlib

/-!
Organization service accounts: a model of `internal/organization/serviceAccount.go`.

The file embeds the two operations of the client,
`CreateOrganizationServiceAccount` and `DeleteOrganizationServiceAccount`,
as pure Lean functions and proves the properties of the specification about
them.

Conventions of the embedding:

* a Go `string` or `[]byte` is a list of bytes (`GoString`);
* a Go `error` is `Option GoError`, `none` being `nil`;
* the receiver `c`, the context and the `request` pointer are non-nil;
* effects are explicit: a call returns, next to its Go results, the requests
  it handed to the HTTP transport and the final state of the response body;
* the parts of the Go standard library whose internals lie outside the
  repository (JSON text syntax, case folding of member names, URL syntax
  checking and the derivation of scheme, host and path from a URL text) are
  the fields of `GoLib`, and every theorem holds for every `GoLib`.
-/

namespace Organization

/-! ## Go values -/

/-- One byte. -/
abbrev Byte := Fin 256

/-- A Go string (or byte slice): a sequence of bytes. -/
abbrev GoString := List Byte

/-- The byte of an ASCII character. -/
def ch (c : Char) : Byte := Fin.ofNat c.toNat

/-- The Go string denoted by a source literal: its UTF-8 bytes. -/
def goStr (s : String) : GoString :=
  (s.data.flatMap String.utf8EncodeChar).map UInt8.val

/-- A non-nil Go error value, identified by the text of its `Error()` method. -/
structure GoError where
  msg : GoString
deriving DecidableEq, Repr

/-- The verb `%v` of package fmt applied to an `int`: its decimal digits,
preceded by a minus sign when negative. -/
def formatInt (n : Int) : GoString := goStr (toString n)

/-- Models `strings.Cut(s, sep)` for a one-byte separator: the text before the
first separator, the text after it, and whether a separator was found. -/
def cut (sep : Byte) : GoString → GoString × GoString × Bool
  | [] => ([], [], false)
  | c :: cs =>
    if c = sep then ([], cs, true)
    else
      let r := cut sep cs
      (c :: r.1, r.2.1, r.2.2)

/-! ## JSON values -/

/-- A JSON number literal: either a plain integer literal, or a literal with
a fraction or an exponent, kept as text. -/
inductive JNumber where
  | int (i : Int)
  | real (text : GoString)

/-- The abstract syntax of a JSON document; an object keeps its members in
document order. -/
inductive JValue where
  | null
  | bool (b : Bool)
  | number (n : JNumber)
  | string (s : GoString)
  | array (items : List JValue)
  | object (members : List (GoString × JValue))

/-- The fields of a `url.URL` that `url.Parse` derives from the text of a URL
before its query: scheme, opaque part, user information, host, decoded path
and the raw path kept as a hint. -/
structure URLParts where
  Scheme : GoString
  Opaque : GoString
  User : GoString
  Host : GoString
  Path : GoString
  RawPath : GoString
deriving DecidableEq, Repr

/-- Behaviour of the Go standard library that the client relies on and whose
internals are not part of the repository. -/
structure GoLib where
  /-- Text written by `json.NewEncoder(w).Encode` for a value with the given
  JSON structure, or the error it reports; the escaping of strings, the
  replacement of bytes that are not valid UTF-8 and the final newline are part
  of it. -/
  jsonEncode : JValue → Except GoError GoString
  /-- Syntax pass of `json.Unmarshal`: the JSON value denoted by a text, or the
  syntax error. -/
  jsonParse : GoString → Except GoError JValue
  /-- Case-insensitive comparison of two member names (`bytes.EqualFold`). -/
  equalFold : GoString → GoString → Bool
  /-- The error `url.Parse` reports for a raw URL, if it rejects it. -/
  urlSyntaxError : GoString → Option GoError
  /-- The scheme, opaque part, user information, host, path and raw path that
  `url.Parse` derives from the text before the query of a URL it accepts
  (lower-casing of the scheme and decoding of the path included). -/
  urlParts : GoString → URLParts

/-- Stands for the `*json.UnmarshalTypeError` reported when a JSON value does
not fit the Go type it is decoded into. -/
def unmarshalTypeError : GoError := ⟨goStr "json: cannot unmarshal value into Go value"⟩

/-- Position of the first name satisfying `p`. -/
def indexWhere (p : GoString → Bool) : List GoString → Option Nat
  | [] => none
  | n :: ns => if p n then some 0 else (indexWhere p ns).map (· + 1)

/-- The struct field a JSON member name selects in `json.Unmarshal`: the field
whose tag is exactly the name, otherwise the first field whose tag equals it
up to case. -/
def findField (lib : GoLib) (names : List GoString) (key : GoString) : Option Nat :=
  match indexWhere (fun n => n == key) names with
  | some i => some i
  | none => indexWhere (fun n => lib.equalFold n key) names

/-- Decoding a JSON value into a Go `string`: `null` leaves the field as it
is, a string sets it, anything else is a type error. -/
def decodeString (v : JValue) (old : GoString) : Except GoError GoString :=
  match v with
  | .null => .ok old
  | .string s => .ok s
  | _ => .error unmarshalTypeError

/-- Decoding a JSON value into a Go `int` (64 bits): `null` leaves the field
as it is, an integer literal in range sets it, anything else is a type
error. -/
def decodeInt (v : JValue) (old : Int) : Except GoError Int :=
  match v with
  | .null => .ok old
  | .number (.int i) =>
    if -(2 : Int) ^ 63 ≤ i ∧ i < (2 : Int) ^ 63 then .ok i else .error unmarshalTypeError
  | _ => .error unmarshalTypeError

/-- Decoding the members of a JSON object into a struct, in document order;
the first error is the one reported. -/
def decodeMembers {σ : Type} (setField : σ → GoString → JValue → Except GoError σ) :
    List (GoString × JValue) → σ → Except GoError σ
  | [], s => .ok s
  | (k, v) :: rest, s =>
    match setField s k v with
    | .error e => .error e
    | .ok s1 => decodeMembers setField rest s1

/-- Decoding a JSON value into a struct: `null` leaves it as it is, an object
is decoded member by member, anything else is a type error. -/
def decodeStruct {σ : Type} (setField : σ → GoString → JValue → Except GoError σ)
    (v : JValue) (s : σ) : Except GoError σ :=
  match v with
  | .null => .ok s
  | .object ms => decodeMembers setField ms s
  | _ => .error unmarshalTypeError

/-! ## The data model (lines 12 to 62) -/

/-- The Go struct `ServiceAccountRequest`. -/
structure ServiceAccountRequest where
  AccessTokenTTLSeconds : Int
  AuthType : GoString
  JwksURL : GoString
  Name : GoString
  RoleID : GoString
deriving DecidableEq, Repr

/-- The Go struct `ServiceAccountRequestWrapper`; `Type_` is its field `Type`. -/
structure ServiceAccountRequestWrapper where
  Attributes : ServiceAccountRequest
  Type_ : GoString
deriving DecidableEq, Repr

/-- The Go struct `ServiceAccountRequestData`. -/
structure ServiceAccountRequestData where
  Data : ServiceAccountRequestWrapper
deriving DecidableEq, Repr

/-- The anonymous struct of `ServiceAccountResponse.Data.Attributes`. -/
structure ResponseAttributes where
  AccessTokenTTLSeconds : Int
  AuthType : GoString
  ClientId : GoString
  ApiKey : GoString
  JwksURL : GoString
  Name : GoString
  RoleID : GoString
deriving DecidableEq, Repr

/-- The anonymous struct of the two `Links` fields of the response. -/
structure ResponseLinks where
  First : GoString
  Last : GoString
  Next : GoString
  Prev : GoString
  Related : GoString
  Self : GoString
deriving DecidableEq, Repr

/-- The anonymous struct of `ServiceAccountResponse.Data`; `Type_` is its field `Type`. -/
structure ResponseData where
  Attributes : ResponseAttributes
  ID : GoString
  Links : ResponseLinks
  Type_ : GoString
deriving DecidableEq, Repr

/-- The anonymous struct of `ServiceAccountResponse.JsonAPI`. -/
structure ResponseJsonAPI where
  Version : GoString
deriving DecidableEq, Repr

/-- The Go struct `ServiceAccountResponse`. -/
structure ServiceAccountResponse where
  Data : ResponseData
  JsonAPI : ResponseJsonAPI
  Links : ResponseLinks
deriving DecidableEq, Repr

/-- The zero value of `ServiceAccountResponse` (`var resp ServiceAccountResponse`). -/
def ServiceAccountResponse.zero : ServiceAccountResponse :=
  { Data := { Attributes := { AccessTokenTTLSeconds := 0, AuthType := [], ClientId := [],
                              ApiKey := [], JwksURL := [], Name := [], RoleID := [] },
              ID := [],
              Links := { First := [], Last := [], Next := [], Prev := [], Related := [], Self := [] },
              Type_ := [] },
    JsonAPI := { Version := [] },
    Links := { First := [], Last := [], Next := [], Prev := [], Related := [], Self := [] } }

/-! ## Encoding the request (struct tags of lines 12 to 27) -/

/-- A member with the tag option `omitempty` on a string field. -/
def omitEmptyString (key : String) (v : GoString) : List (GoString × JValue) :=
  if v = [] then [] else [(goStr key, .string v)]

/-- A member with the tag option `omitempty` on an int field. -/
def omitEmptyInt (key : String) (v : Int) : List (GoString × JValue) :=
  if v = 0 then [] else [(goStr key, .number (.int v))]

/-- The members of the JSON object of a `ServiceAccountRequest`, in the order
of the fields of the struct. -/
def ServiceAccountRequest.members (r : ServiceAccountRequest) : List (GoString × JValue) :=
  omitEmptyInt "access_token_ttl_seconds" r.AccessTokenTTLSeconds ++
  [(goStr "auth_type", .string r.AuthType)] ++
  omitEmptyString "jwks_url" r.JwksURL ++
  [(goStr "name", .string r.Name), (goStr "role_id", .string r.RoleID)]

/-- JSON structure of a `ServiceAccountRequest`. -/
def ServiceAccountRequest.toJSON (r : ServiceAccountRequest) : JValue :=
  .object r.members

/-- JSON structure of a `ServiceAccountRequestWrapper`. -/
def ServiceAccountRequestWrapper.toJSON (w : ServiceAccountRequestWrapper) : JValue :=
  .object [(goStr "attributes", w.Attributes.toJSON), (goStr "type", .string w.Type_)]

/-- JSON structure of a `ServiceAccountRequestData`. -/
def ServiceAccountRequestData.toJSON (d : ServiceAccountRequestData) : JValue :=
  .object [(goStr "data", d.Data.toJSON)]

/-! ## Decoding the response (struct tags of lines 29 to 62) -/

/-- Tags of the fields of the links structs. -/
def linksNames : List GoString :=
  [goStr "first", goStr "last", goStr "next", goStr "prev", goStr "related", goStr "self"]

/-- Tags of the fields of `Data.Attributes`. -/
def attributesNames : List GoString :=
  [goStr "access_token_ttl_seconds", goStr "auth_type", goStr "client_id", goStr "api_key",
   goStr "jwks_url", goStr "name", goStr "role_id"]

/-- Tags of the fields of `Data`. -/
def dataNames : List GoString :=
  [goStr "attributes", goStr "id", goStr "links", goStr "type"]

/-- Tags of the fields of `ServiceAccountResponse`. -/
def responseNames : List GoString :=
  [goStr "data", goStr "jsonapi", goStr "links"]

/-- Decodes one member of a links object. -/
def ResponseLinks.setField (lib : GoLib) (l : ResponseLinks) (key : GoString) (v : JValue) :
    Except GoError ResponseLinks :=
  match findField lib linksNames key with
  | some 0 => (decodeString v l.First).map (fun s => { l with First := s })
  | some 1 => (decodeString v l.Last).map (fun s => { l with Last := s })
  | some 2 => (decodeString v l.Next).map (fun s => { l with Next := s })
  | some 3 => (decodeString v l.Prev).map (fun s => { l with Prev := s })
  | some 4 => (decodeString v l.Related).map (fun s => { l with Related := s })
  | some 5 => (decodeString v l.Self).map (fun s => { l with Self := s })
  | _ => .ok l

/-- Decodes one member of the attributes object. -/
def ResponseAttributes.setField (lib : GoLib) (a : ResponseAttributes) (key : GoString)
    (v : JValue) : Except GoError ResponseAttributes :=
  match findField lib attributesNames key with
  | some 0 => (decodeInt v a.AccessTokenTTLSeconds).map (fun n => { a with AccessTokenTTLSeconds := n })
  | some 1 => (decodeString v a.AuthType).map (fun s => { a with AuthType := s })
  | some 2 => (decodeString v a.ClientId).map (fun s => { a with ClientId := s })
  | some 3 => (decodeString v a.ApiKey).map (fun s => { a with ApiKey := s })
  | some 4 => (decodeString v a.JwksURL).map (fun s => { a with JwksURL := s })
  | some 5 => (decodeString v a.Name).map (fun s => { a with Name := s })
  | some 6 => (decodeString v a.RoleID).map (fun s => { a with RoleID := s })
  | _ => .ok a

/-- Decodes one member of the `data` object. -/
def ResponseData.setField (lib : GoLib) (d : ResponseData) (key : GoString) (v : JValue) :
    Except GoError ResponseData :=
  match findField lib dataNames key with
  | some 0 =>
    (decodeStruct (ResponseAttributes.setField lib) v d.Attributes).map
      (fun a => { d with Attributes := a })
  | some 1 => (decodeString v d.ID).map (fun s => { d with ID := s })
  | some 2 =>
    (decodeStruct (ResponseLinks.setField lib) v d.Links).map (fun l => { d with Links := l })
  | some 3 => (decodeString v d.Type_).map (fun s => { d with Type_ := s })
  | _ => .ok d

/-- Decodes one member of the `jsonapi` object. -/
def ResponseJsonAPI.setField (lib : GoLib) (j : ResponseJsonAPI) (key : GoString) (v : JValue) :
    Except GoError ResponseJsonAPI :=
  match findField lib [goStr "version"] key with
  | some 0 => (decodeString v j.Version).map (fun s => { j with Version := s })
  | _ => .ok j

/-- Decodes one member of the top-level object of the response. -/
def ServiceAccountResponse.setField (lib : GoLib) (r : ServiceAccountResponse) (key : GoString)
    (v : JValue) : Except GoError ServiceAccountResponse :=
  match findField lib responseNames key with
  | some 0 =>
    (decodeStruct (ResponseData.setField lib) v r.Data).map (fun d => { r with Data := d })
  | some 1 =>
    (decodeStruct (ResponseJsonAPI.setField lib) v r.JsonAPI).map
      (fun j => { r with JsonAPI := j })
  | some 2 =>
    (decodeStruct (ResponseLinks.setField lib) v r.Links).map (fun l => { r with Links := l })
  | _ => .ok r

/-- The structural pass of `json.Unmarshal(bodyBytes, &resp)` on a parsed
document, starting from the zero value. -/
def decodeResponse (lib : GoLib) (v : JValue) : Except GoError ServiceAccountResponse :=
  decodeStruct (ServiceAccountResponse.setField lib) v ServiceAccountResponse.zero

/-- Models `json.Unmarshal(bodyBytes, &resp)`: the syntax of the whole text is
checked first, then the document is decoded into the struct. -/
def unmarshalResponse (lib : GoLib) (text : GoString) : Except GoError ServiceAccountResponse :=
  match lib.jsonParse text with
  | .error e => .error e
  | .ok v => decodeResponse lib v

/-! ## URLs and query strings (package net/url) -/

/-- The Go struct `url.URL`, with the fragment kept as the text after `#`. -/
structure URL where
  Scheme : GoString
  Opaque : GoString
  User : GoString
  Host : GoString
  Path : GoString
  RawPath : GoString
  RawQuery : GoString
  Fragment : GoString
deriving DecidableEq, Repr

/-- Models `url.Parse`: a URL the library accepts is cut at the first `#` into
URL and fragment, and the URL at the first `?` into the text before the query
and the raw query (a lone `?` at the end thus gives an empty raw query); the
library derives scheme, host and path from the text before the query. -/
def parseURL (lib : GoLib) (rawURL : GoString) : Except GoError URL :=
  match lib.urlSyntaxError rawURL with
  | some err => .error err
  | none =>
    let u := cut (ch '#') rawURL
    let r := cut (ch '?') u.1
    let p := lib.urlParts r.1
    .ok { Scheme := p.Scheme, Opaque := p.Opaque, User := p.User, Host := p.Host,
          Path := p.Path, RawPath := p.RawPath, RawQuery := r.2.1, Fragment := u.2.1 }

/-- The Go type `url.Values`, a map from keys to lists of values, as an
association list. -/
abbrev Values := List (GoString × List GoString)

/-- The Go expression `m[key]`; a missing key gives the empty list. -/
def Values.index : Values → GoString → List GoString
  | [], _ => []
  | (k, vs) :: rest, key => if k = key then vs else Values.index rest key

/-- The Go statement `m[key] = append(m[key], value)`. -/
def Values.append : Values → GoString → GoString → Values
  | [], key, value => [(key, [value])]
  | (k, vs) :: rest, key, value =>
    if k = key then (k, vs ++ [value]) :: rest else (k, vs) :: Values.append rest key value

/-- Models `Values.Set`: `m[key] = []string{value}`. -/
def Values.Set : Values → GoString → GoString → Values
  | [], key, value => [(key, [value])]
  | (k, vs) :: rest, key, value =>
    if k = key then (k, [value]) :: rest else (k, vs) :: Values.Set rest key value

/-- Whether `QueryEscape` escapes a byte: everything but ASCII letters, digits
and the marks `-`, `_`, `.`, `~`. -/
def shouldEscape (c : Byte) : Bool :=
  !((ch 'a' ≤ c && c ≤ ch 'z') || (ch 'A' ≤ c && c ≤ ch 'Z') || (ch '0' ≤ c && c ≤ ch '9')
    || c = ch '-' || c = ch '_' || c = ch '.' || c = ch '~')

/-- The hexadecimal digit of a value below 16 (`"0123456789ABCDEF"[n]`). -/
def upperhex (n : Nat) : Byte :=
  if n < 10 then Fin.ofNat (48 + n) else Fin.ofNat (55 + n)

/-- The escaped form of one byte: itself, `+` for a space, or `%XX`. -/
def escapeByte (c : Byte) : GoString :=
  if shouldEscape c then
    if c = ch ' ' then [ch '+'] else [ch '%', upperhex (c.val / 16), upperhex (c.val % 16)]
  else [c]

/-- Models `url.QueryEscape`. -/
def QueryEscape (s : GoString) : GoString := s.flatMap escapeByte

/-- Whether a byte is a hexadecimal digit. -/
def ishex (c : Byte) : Bool :=
  (ch '0' ≤ c && c ≤ ch '9') || (ch 'a' ≤ c && c ≤ ch 'f') || (ch 'A' ≤ c && c ≤ ch 'F')

/-- The value of a hexadecimal digit. -/
def unhex (c : Byte) : Nat :=
  if ch '0' ≤ c ∧ c ≤ ch '9' then c.val - 48
  else if ch 'a' ≤ c ∧ c ≤ ch 'f' then c.val - 97 + 10
  else if ch 'A' ≤ c ∧ c ≤ ch 'F' then c.val - 65 + 10
  else 0

/-- Models `url.QueryUnescape`; `none` stands for its error, reported when a
`%` is not followed by two hexadecimal digits. -/
def QueryUnescape : GoString → Option GoString
  | [] => some []
  | c :: rest =>
    if c = ch '%' then
      match rest with
      | a :: b :: rest2 =>
        if ishex a && ishex b then
          (QueryUnescape rest2).map (fun t => Fin.ofNat (16 * unhex a + unhex b) :: t)
        else none
      | _ => none
    else if c = ch '+' then (QueryUnescape rest).map (fun t => ch ' ' :: t)
    else (QueryUnescape rest).map (fun t => c :: t)

/-- The pieces of a text between the occurrences of a separator. -/
def splitOn (sep : Byte) : GoString → List GoString
  | [] => [[]]
  | c :: cs =>
    if c = sep then [] :: splitOn sep cs
    else
      match splitOn sep cs with
      | [] => [[c]]
      | p :: ps => (c :: p) :: ps

/-- One turn of the loop of `url.ParseQuery` on the piece `key=value`: a piece
that is empty, holds a semicolon or does not unescape is skipped. -/
def parseQueryPiece (m : Values) (piece : GoString) : Values :=
  if piece.contains (ch ';') then m
  else if piece = [] then m
  else
    let kv := cut (ch '=') piece
    match QueryUnescape kv.1 with
    | none => m
    | some key =>
      match QueryUnescape kv.2.1 with
      | none => m
      | some value => m.append key value

/-- Models `url.ParseQuery`, without the error it returns next to the map. -/
def ParseQuery (query : GoString) : Values :=
  (splitOn (ch '&') query).foldl parseQueryPiece []

/-- Models `URL.Query`: the parsed raw query, malformed pairs dropped. -/
def URL.Query (u : URL) : Values := ParseQuery u.RawQuery

/-- Bytewise lexicographic order of Go strings. -/
def goStringLE : GoString → GoString → Bool
  | [], _ => true
  | _ :: _, [] => false
  | a :: as, b :: bs => a < b || (a == b && goStringLE as bs)

/-- The pairs `key=value` of one key, escaped. -/
def encodeEntry (e : GoString × List GoString) : List GoString :=
  e.2.map (fun v => QueryEscape e.1 ++ ch '=' :: QueryEscape v)

/-- The pieces of a text, with a separator between two of them. -/
def joinWith (sep : Byte) : List GoString → GoString
  | [] => []
  | [p] => p
  | p :: q :: ps => p ++ sep :: joinWith sep (q :: ps)

/-- Models `Values.Encode`: the pairs, sorted by key, joined by `&`. -/
def Values.Encode (m : Values) : GoString :=
  joinWith (ch '&')
    ((m.insertionSort (fun a b => goStringLE a.1 b.1 = true)).flatMap encodeEntry)

/-! ## Requests and responses (package net/http) -/

/-- The Go type `http.Header`. The two keys the client sets are in canonical
form already, so that `Set` stores them as written. -/
abbrev Header := List (GoString × List GoString)

/-- Models `Header.Set` for a key in canonical form. -/
def Header.Set (h : Header) (key value : GoString) : Header := Values.Set h key value

/-- Models `Header.Get`: the first value of a key, or the empty string. -/
def Header.Get (h : Header) (key : GoString) : GoString :=
  match Values.index h key with
  | [] => []
  | v :: _ => v

/-- An outgoing request: method, URL, header and the bytes of the body
(`none` for a nil body). -/
structure Request where
  Method : GoString
  URL : URL
  Header : Header
  Body : Option GoString
deriving DecidableEq, Repr

/-- Position of the last occurrence of a byte in a text, counted from 1, or 0
when the byte does not occur (`strings.LastIndex`, shifted by one). -/
def lastIndex (c : Byte) : GoString → Nat → Nat → Nat
  | [], _, found => found
  | d :: ds, i, found => lastIndex c ds (i + 1) (if d = c then i + 1 else found)

/-- Models `hasPort` of package net/http: the last `:` lies after the last
`]`. -/
def hasPort (host : GoString) : Bool :=
  lastIndex (ch ':') host 0 0 > lastIndex (ch ']') host 0 0

/-- Models `removeEmptyPort` of package net/http: a host with a port loses a
final `:`. -/
def removeEmptyPort (host : GoString) : GoString :=
  if hasPort host ∧ host.getLast? = some (ch ':') then host.dropLast else host

/-- Models `http.NewRequestWithContext` for the methods POST and DELETE and a
non-nil context: the URL is parsed, an empty port is removed from its host,
the header starts empty. -/
def NewRequestWithContext (lib : GoLib) (method url : GoString) (body : Option GoString) :
    Except GoError Request :=
  match parseURL lib url with
  | .error err => .error err
  | .ok u =>
    .ok { Method := method, URL := { u with Host := removeEmptyPort u.Host }, Header := [],
          Body := body }

/-- A response body (an `io.ReadCloser`): the bytes it delivers, the error that
ends reading if it is not the end of the data, the result of `Close`, and the
number of times `Close` has been called. -/
structure Body where
  content : GoString
  readErr : Option GoError
  closeErr : Option GoError
  closeCount : Nat
deriving DecidableEq, Repr

/-- Models `io.ReadAll(res.Body)`: the bytes read, the error, and the drained
body. -/
def Body.ReadAll (b : Body) : GoString × Option GoError × Body :=
  (b.content, b.readErr, { b with content := [] })

/-- Models `res.Body.Close()`: its result and the body with the call counted. -/
def Body.Close (b : Body) : Option GoError × Body :=
  (b.closeErr, { b with closeCount := b.closeCount + 1 })

/-- An incoming response, as far as the client looks into it. -/
structure Response where
  StatusCode : Int
  Body : Body
deriving DecidableEq, Repr

/-- The HTTP transport: the result of `Do` for each request. -/
structure HTTPClient where
  Do : Request → Except GoError Response

/-- The Go struct `Client`: base URL, API version, credential and transport. -/
structure Client where
  url : GoString
  version : GoString
  authorization : GoString
  httpClient : HTTPClient

/-- Status codes of package net/http. -/
def StatusCreated : Int := 201

/-- The status code 204. -/
def StatusNoContent : Int := 204

/-- The status code 404. -/
def StatusNotFound : Int := 404

/-- The method POST. -/
def MethodPost : GoString := goStr "POST"

/-- The method DELETE. -/
def MethodDelete : GoString := goStr "DELETE"

/-! ## The two operations (lines 64 to 156) -/

/-- Lines 83 to 88 and 127 to 132: the query parameter `version` and the two
headers are set on the new request. -/
def Client.prepare (c : Client) (req : Request) : Request :=
  let query := req.URL.Query
  let query := query.Set (goStr "version") c.version
  let req := { req with URL := { req.URL with RawQuery := query.Encode } }
  let req := { req with
    Header := req.Header.Set (goStr "Content-Type") (goStr "application/vnd.api+json") }
  { req with Header := req.Header.Set (goStr "Authorization") c.authorization }

/-- Lines 66 to 71: the envelope built around the request of the caller. -/
def envelope (request : ServiceAccountRequest) : ServiceAccountRequestData :=
  { Data := { Attributes := request, Type_ := goStr "service_account" } }

/-- Lines 65 to 88 of `CreateOrganizationServiceAccount`: the request handed
to the transport, or the error that ends the call before anything is sent. -/
def createRequest (lib : GoLib) (c : Client) (orgID : GoString)
    (request : ServiceAccountRequest) : Except GoError Request :=
  match lib.jsonEncode (envelope request).toJSON with
  | .error err => .error err
  | .ok body =>
    let url := c.url ++ goStr "/v3/orgs/" ++ orgID ++ goStr "/service_accounts"
    match NewRequestWithContext lib MethodPost url (some body) with
    | .error err => .error err
    | .ok req => .ok (c.prepare req)

/-- Lines 101 to 116 of `CreateOrganizationServiceAccount`: the results
determined from the response before the deferred function runs, and the body
after reading. -/
def createResult (lib : GoLib) (res : Response) :
    Option ServiceAccountResponse × Option GoError × Body :=
  if res.StatusCode = StatusCreated then
    let r := res.Body.ReadAll
    match r.2.1 with
    | some err => (none, some err, r.2.2)
    | none =>
      match unmarshalResponse lib r.1 with
      | .error err => (none, some err, r.2.2)
      | .ok resp => (some resp, none, r.2.2)
  else
    let r := res.Body.ReadAll
    (none, some ⟨goStr "invalid status code: " ++ r.1⟩, r.2.2)

/-- Lines 95 to 99 and 139 to 143: the deferred function closes the body and
replaces the named result `e` by the error of `Close` when `e` is nil. -/
def deferredClose (b : Body) (e : Option GoError) : Option GoError × Body :=
  let r := b.Close
  match r.1, e with
  | some err, none => (some err, r.2)
  | _, _ => (e, r.2)

/-- What a call of `CreateOrganizationServiceAccount` returns and does: the
results `sar` and `e`, the requests handed to the transport, the response the
transport returned (`none` when it returned none), and the body of that
response as the call leaves it. -/
structure CreateOutcome where
  sar : Option ServiceAccountResponse
  e : Option GoError
  sent : List Request
  received : Option Response
  body : Option Body

/-- The method `CreateOrganizationServiceAccount` (lines 64 to 117). -/
def CreateOrganizationServiceAccount (lib : GoLib) (c : Client) (orgID : GoString)
    (request : ServiceAccountRequest) : CreateOutcome :=
  match createRequest lib c orgID request with
  | .error err => { sar := none, e := some err, sent := [], received := none, body := none }
  | .ok req =>
    match c.httpClient.Do req with
    | .error err => { sar := none, e := some err, sent := [req], received := none, body := none }
    | .ok res =>
      let r := createResult lib res
      let d := deferredClose r.2.2 r.2.1
      { sar := r.1, e := d.1, sent := [req], received := some res, body := some d.2 }

/-- Lines 120 to 132 of `DeleteOrganizationServiceAccount`: the request handed
to the transport, or the error that ends the call before anything is sent. -/
def deleteRequest (lib : GoLib) (c : Client) (orgID saID : GoString) : Except GoError Request :=
  let url := c.url ++ goStr "/v3/orgs/" ++ orgID ++ goStr "/service_accounts/" ++ saID
  match NewRequestWithContext lib MethodDelete url none with
  | .error err => .error err
  | .ok req => .ok (c.prepare req)

/-- Lines 145 to 155 of `DeleteOrganizationServiceAccount`: the result
determined from the status code before the deferred function runs. -/
def deleteResult (res : Response) : Option GoError :=
  if res.StatusCode ≠ StatusNoContent then
    if res.StatusCode = StatusNotFound then none
    else some ⟨goStr "invalid status code: " ++ formatInt res.StatusCode⟩
  else none

/-- What a call of `DeleteOrganizationServiceAccount` returns and does: the
result `e`, the requests handed to the transport, the response the transport
returned (`none` when it returned none), and the body of that response as the
call leaves it. -/
structure DeleteOutcome where
  e : Option GoError
  sent : List Request
  received : Option Response
  body : Option Body

/-- The method `DeleteOrganizationServiceAccount` (lines 119 to 156). -/
def DeleteOrganizationServiceAccount (lib : GoLib) (c : Client) (orgID saID : GoString) :
    DeleteOutcome :=
  match deleteRequest lib c orgID saID with
  | .error err => { e := some err, sent := [], received := none, body := none }
  | .ok req =>
    match c.httpClient.Do req with
    | .error err => { e := some err, sent := [req], received := none, body := none }
    | .ok res =>
      let d := deferredClose res.Body (deleteResult res)
      { e := d.1, sent := [req], received := some res, body := some d.2 }

/-! ## Auxiliary notions for the properties of query strings -/

/-- The pairs of a map, key by key. -/
def pairsOf (m : Values) : List (GoString × GoString) :=
  m.flatMap (fun e => e.2.map (fun v => (e.1, v)))

/-- The text of one pair in an encoded query. -/
def encodePair (p : GoString × GoString) : GoString :=
  QueryEscape p.1 ++ ch '=' :: QueryEscape p.2

/-- The keys of a map. -/
def Values.keys (m : Values) : List GoString := m.map Prod.fst

/-! ## Well-formed response documents

The JSON:API documents that carry given values: at each level the members
have distinct names, each a tag of the struct or a name that selects no field,
and every field is either present as a member of the right kind, or absent.
The predicates take the value a field has before decoding (`old`), which an
absent member leaves in place; for a document decoded into the zero value an
absent member thus stands for the zero value of its field. -/

/-- The value of the member of an object with a given name. -/
def memberOf (key : GoString) : List (GoString × JValue) → Option JValue
  | [] => none
  | (k, v) :: ms => if k = key then some v else memberOf key ms

/-- The members of an object have distinct names, each of which is one of the
given tags or selects no field at all (such a member is ignored). -/
def knownMembers (lib : GoLib) (names : List GoString) (ms : List (GoString × JValue)) :
    Prop :=
  (ms.map Prod.fst).Nodup ∧ ∀ k ∈ ms.map Prod.fst, k ∈ names ∨ findField lib names k = none

/-- The string field with tag `key` has the value `new`: the member is
present with that string, or absent and the value is the old one. -/
def stringMember (ms : List (GoString × JValue)) (key : String) (old new : GoString) : Prop :=
  memberOf (goStr key) ms = some (.string new) ∨ (memberOf (goStr key) ms = none ∧ new = old)

/-- The int field with tag `key` has the value `new`: the member is present
with that integer, which fits 64 bits, or absent and the value is the old
one. -/
def intMember (ms : List (GoString × JValue)) (key : String) (old new : Int) : Prop :=
  (memberOf (goStr key) ms = some (.number (.int new)) ∧
      -(2 : Int) ^ 63 ≤ new ∧ new < (2 : Int) ^ 63) ∨
    (memberOf (goStr key) ms = none ∧ new = old)

/-- The struct field with tag `key`: the member is present as an object whose
members satisfy `inner`, or absent and the value is the old one. -/
def objectMember (ms : List (GoString × JValue)) (key : String)
    (inner : List (GoString × JValue) → Prop) (unchanged : Prop) : Prop :=
  (∃ sub, memberOf (goStr key) ms = some (.object sub) ∧ inner sub) ∨
    (memberOf (goStr key) ms = none ∧ unchanged)

/-- The members of a links object that carries the values `new`. -/
def linksMembers (lib : GoLib) (ms : List (GoString × JValue)) (old new : ResponseLinks) :
    Prop :=
  knownMembers lib linksNames ms ∧
  stringMember ms "first" old.First new.First ∧
  stringMember ms "last" old.Last new.Last ∧
  stringMember ms "next" old.Next new.Next ∧
  stringMember ms "prev" old.Prev new.Prev ∧
  stringMember ms "related" old.Related new.Related ∧
  stringMember ms "self" old.Self new.Self

/-- The members of an attributes object that carries the values `new`. -/
def attributesMembers (lib : GoLib) (ms : List (GoString × JValue))
    (old new : ResponseAttributes) : Prop :=
  knownMembers lib attributesNames ms ∧
  intMember ms "access_token_ttl_seconds" old.AccessTokenTTLSeconds new.AccessTokenTTLSeconds ∧
  stringMember ms "auth_type" old.AuthType new.AuthType ∧
  stringMember ms "client_id" old.ClientId new.ClientId ∧
  stringMember ms "api_key" old.ApiKey new.ApiKey ∧
  stringMember ms "jwks_url" old.JwksURL new.JwksURL ∧
  stringMember ms "name" old.Name new.Name ∧
  stringMember ms "role_id" old.RoleID new.RoleID

/-- The members of a `data` object that carries the values `new`. -/
def dataMembers (lib : GoLib) (ms : List (GoString × JValue)) (old new : ResponseData) :
    Prop :=
  knownMembers lib dataNames ms ∧
  objectMember ms "attributes"
    (fun sub => attributesMembers lib sub old.Attributes new.Attributes)
    (new.Attributes = old.Attributes) ∧
  stringMember ms "id" old.ID new.ID ∧
  objectMember ms "links" (fun sub => linksMembers lib sub old.Links new.Links)
    (new.Links = old.Links) ∧
  stringMember ms "type" old.Type_ new.Type_

/-- The members of a `jsonapi` object that carries the values `new`. -/
def jsonAPIMembers (lib : GoLib) (ms : List (GoString × JValue))
    (old new : ResponseJsonAPI) : Prop :=
  knownMembers lib [goStr "version"] ms ∧
  stringMember ms "version" old.Version new.Version

/-- The members of a top-level object that carries the values `new`. -/
def responseMembers (lib : GoLib) (ms : List (GoString × JValue))
    (old new : ServiceAccountResponse) : Prop :=
  knownMembers lib responseNames ms ∧
  objectMember ms "data" (fun sub => dataMembers lib sub old.Data new.Data)
    (new.Data = old.Data) ∧
  objectMember ms "jsonapi" (fun sub => jsonAPIMembers lib sub old.JsonAPI new.JsonAPI)
    (new.JsonAPI = old.JsonAPI) ∧
  objectMember ms "links" (fun sub => linksMembers lib sub old.Links new.Links)
    (new.Links = old.Links)

/-- A well-formed JSON:API document carrying the values of `r`: an object
whose members, and theirs in turn, are the fields of `r`, an absent member
standing for the zero value. -/
def WellFormedDocument (lib : GoLib) (v : JValue) (r : ServiceAccountResponse) : Prop :=
  ∃ ms, v = .object ms ∧ responseMembers lib ms ServiceAccountResponse.zero r

/-! ## Sample values

A stand-in for the library, a client and the exchanges of the scenarios of
the specification; the theorems are instantiated at them. -/

mutual
/-- Compact JSON text of a value whose strings need no escaping. -/
def renderJSON : JValue → GoString
  | .null => goStr "null"
  | .bool b => if b then goStr "true" else goStr "false"
  | .number (.int i) => formatInt i
  | .number (.real t) => t
  | .string s => ch '"' :: s ++ [ch '"']
  | .array xs => ch '[' :: renderItems xs ++ [ch ']']
  | .object ms => ch '\x7b' :: renderMembers ms ++ [ch '\x7d']
/-- The items of an array, separated by commas. -/
def renderItems : List JValue → GoString
  | [] => []
  | x :: xs => renderJSON x ++ (if xs.isEmpty then [] else ch ',' :: renderItems xs)
/-- The members of an object, separated by commas. -/
def renderMembers : List (GoString × JValue) → GoString
  | [] => []
  | (k, v) :: ms =>
    ch '"' :: k ++ ch '"' :: ch ':' :: renderJSON v ++
      (if ms.isEmpty then [] else ch ',' :: renderMembers ms)
end

/-- Drops leading JSON white space. -/
def skipSpace : GoString → GoString
  | [] => []
  | c :: cs =>
    if c = ch ' ' ∨ c = ch '\n' ∨ c = ch '\t' ∨ c = ch '\r' then skipSpace cs else c :: cs

/-- Reads a string after its opening quote, up to the closing quote; escape
sequences and control characters are not accepted. -/
def readString : GoString → Option (GoString × GoString)
  | [] => none
  | c :: cs =>
    if c = ch '"' then some ([], cs)
    else if c = ch '\\' ∨ c.val < 32 then none
    else (readString cs).map (fun r => (c :: r.1, r.2))

/-- Reads the decimal digits at the head of a text: their value so far, how
many were read, and the rest. -/
def readDigits (acc count : Nat) : GoString → Nat × Nat × GoString
  | [] => (acc, count, [])
  | c :: cs =>
    if ch '0' ≤ c ∧ c ≤ ch '9' then readDigits (10 * acc + (c.val - 48)) (count + 1) cs
    else (acc, count, c :: cs)

/-- Reads an integer literal; a literal with a fraction or an exponent is not
accepted. -/
def readInt (input : GoString) : Option (Int × GoString) :=
  let negative := input.head? = some (ch '-')
  let r := readDigits 0 0 (if negative then input.tail else input)
  if r.2.1 = 0 then none
  else if r.2.2.head? = some (ch '.') ∨ r.2.2.head? = some (ch 'e') ∨ r.2.2.head? = some (ch 'E')
  then none
  else some (if negative then -(r.1 : Int) else (r.1 : Int), r.2.2)

mutual
/-- Reads one JSON value, with a bound on the number of nested steps. -/
def readValue : Nat → GoString → Option (JValue × GoString)
  | 0, _ => none
  | fuel + 1, input =>
    match skipSpace input with
    | [] => none
    | c :: cs =>
      if c = ch '\x7b' then
        match skipSpace cs with
        | [] => none
        | d :: ds =>
          if d = ch '\x7d' then some (.object [], ds)
          else (readMembers fuel (d :: ds)).map (fun r => (.object r.1, r.2))
      else if c = ch '[' then
        match skipSpace cs with
        | [] => none
        | d :: ds =>
          if d = ch ']' then some (.array [], ds)
          else (readItems fuel (d :: ds)).map (fun r => (.array r.1, r.2))
      else if c = ch '"' then (readString cs).map (fun r => (.string r.1, r.2))
      else if (c :: cs).take 4 = goStr "null" then some (.null, (c :: cs).drop 4)
      else if (c :: cs).take 4 = goStr "true" then some (.bool true, (c :: cs).drop 4)
      else if (c :: cs).take 5 = goStr "false" then some (.bool false, (c :: cs).drop 5)
      else (readInt (c :: cs)).map (fun r => (.number (.int r.1), r.2))
/-- Reads the members of an object up to the closing brace. -/
def readMembers : Nat → GoString → Option (List (GoString × JValue) × GoString)
  | 0, _ => none
  | fuel + 1, input =>
    match skipSpace input with
    | [] => none
    | c :: cs =>
      if c = ch '"' then
        match readString cs with
        | none => none
        | some (key, rest) =>
          match skipSpace rest with
          | [] => none
          | d :: ds =>
            if d = ch ':' then
              match readValue fuel ds with
              | none => none
              | some (v, rest2) =>
                match skipSpace rest2 with
                | [] => none
                | e :: es =>
                  if e = ch '\x7d' then some ([(key, v)], es)
                  else if e = ch ',' then
                    (readMembers fuel es).map (fun r => ((key, v) :: r.1, r.2))
                  else none
            else none
      else none
/-- Reads the items of an array up to the closing bracket. -/
def readItems : Nat → GoString → Option (List JValue × GoString)
  | 0, _ => none
  | fuel + 1, input =>
    match readValue fuel input with
    | none => none
    | some (v, rest) =>
      match skipSpace rest with
      | [] => none
      | e :: es =>
        if e = ch ']' then some ([v], es)
        else if e = ch ',' then (readItems fuel es).map (fun r => (v :: r.1, r.2))
        else none
end

/-- Reads a whole text as one JSON value. -/
def readJSON (text : GoString) : Option JValue :=
  match readValue (text.length + 1) text with
  | none => none
  | some (v, rest) => if skipSpace rest = [] then some v else none

/-- The response body of the create scenario. -/
def scenarioBody : GoString :=
  goStr ("\x7b\"data\":\x7b\"id\":\"sa-1\",\"type\":\"service_account\"," ++
    "\"attributes\":\x7b\"name\":\"svc1\",\"role_id\":\"role-123\",\"auth_type\":\"jwt\"," ++
    "\"client_id\":\"c1\",\"api_key\":\"k1\"\x7d\x7d\x7d")

/-- The JSON document that `scenarioBody` denotes. -/
def scenarioDocument : JValue :=
  .object [(goStr "data", .object [
    (goStr "id", .string (goStr "sa-1")),
    (goStr "type", .string (goStr "service_account")),
    (goStr "attributes", .object [
      (goStr "name", .string (goStr "svc1")),
      (goStr "role_id", .string (goStr "role-123")),
      (goStr "auth_type", .string (goStr "jwt")),
      (goStr "client_id", .string (goStr "c1")),
      (goStr "api_key", .string (goStr "k1"))])])]

/-- The lower-case form of an ASCII letter. -/
def asciiLower (c : Byte) : Byte :=
  if ch 'A' ≤ c ∧ c ≤ ch 'Z' then Fin.ofNat (c.val + 32) else c

/-- The parts of a plain URL text `scheme://host/path`, without user
information and without escapes; any other text is taken as a path. -/
def plainURLParts (text : GoString) : URLParts :=
  let s := cut (ch ':') text
  if s.2.2 ∧ s.2.1.take 2 = goStr "//" then
    { Scheme := s.1, Opaque := [], User := [],
      Host := (s.2.1.drop 2).takeWhile (fun c => c != ch '/'),
      Path := (s.2.1.drop 2).dropWhile (fun c => c != ch '/'), RawPath := [] }
  else { Scheme := [], Opaque := [], User := [], Host := [], Path := text, RawPath := [] }

/-- A stand-in for the library: it renders JSON compactly, reads JSON texts
without escape sequences and with integer numbers only, folds ASCII letters,
rejects URLs with control characters and splits plain URLs. -/
def sampleLib : GoLib where
  jsonEncode := fun v => .ok (renderJSON v ++ [ch '\n'])
  jsonParse := fun text =>
    match readJSON text with
    | some v => .ok v
    | none => .error ⟨goStr "invalid character looking for beginning of value"⟩
  equalFold := fun a b => a.map asciiLower == b.map asciiLower
  urlSyntaxError := fun u =>
    if u.any (fun c => c.val < 32 || c.val == 127) then
      some ⟨goStr "net/url: invalid control character in URL"⟩
    else none
  urlParts := plainURLParts

/-- A client whose transport answers every request with the given response. -/
def sampleClient (reply : Response) : Client where
  url := goStr "https://api.example.com"
  version := goStr "2024-10-15"
  authorization := goStr "token 0123"
  httpClient := ⟨fun _ => .ok reply⟩

/-- A response with the given status and body text, whose body reads and
closes without error. -/
def sampleResponse (status : Int) (text : GoString) : Response where
  StatusCode := status
  Body := { content := text, readErr := none, closeErr := none, closeCount := 0 }

/-- A response like `sampleResponse` whose body fails to close. -/
def sampleResponseCloseFails (status : Int) (text : GoString) : Response where
  StatusCode := status
  Body := { content := text, readErr := none,
            closeErr := some ⟨goStr "close failed"⟩, closeCount := 0 }

/-- The request of the create scenario. -/
def scenarioRequest : ServiceAccountRequest where
  AccessTokenTTLSeconds := 0
  AuthType := goStr "jwt"
  JwksURL := goStr "https://example.com/jwks"
  Name := goStr "svc1"
  RoleID := goStr "role-123"

/-- The response object of the create scenario. -/
def scenarioResponse : ServiceAccountResponse :=
  { ServiceAccountResponse.zero with
    Data := { ServiceAccountResponse.zero.Data with
      ID := goStr "sa-1"
      Type_ := goStr "service_account"
      Attributes := { ServiceAccountResponse.zero.Data.Attributes with
        Name := goStr "svc1"
        RoleID := goStr "role-123"
        AuthType := goStr "jwt"
        ClientId := goStr "c1"
        ApiKey := goStr "k1" } } }

/-- The request Create hands to the transport in the create scenario, for the
organization "org-1". -/
def scenarioCreateRequest : Request where
  Method := goStr "POST"
  URL := { Scheme := goStr "https", Opaque := [], User := [],
           Host := goStr "api.example.com",
           Path := goStr "/v3/orgs/org-1/service_accounts", RawPath := [],
           RawQuery := goStr "version=2024-10-15",
           Fragment := [] }
  Header := [(goStr "Content-Type", [goStr "application/vnd.api+json"]),
             (goStr "Authorization", [goStr "token 0123"])]
  Body := some (goStr ("\x7b\"data\":\x7b\"attributes\":\x7b\"auth_type\":\"jwt\"," ++
    "\"jwks_url\":\"https://example.com/jwks\",\"name\":\"svc1\"," ++
    "\"role_id\":\"role-123\"\x7d,\"type\":\"service_account\"\x7d\x7d\n"))

set_option maxRecDepth 100000

/-! ## Lemmas on query strings -/

theorem shouldEscape_false (c : Byte) (h : shouldEscape c = false) :
    c ≠ ch '%' ∧ c ≠ ch '+' ∧ c ≠ ch '&' ∧ c ≠ ch '=' ∧ c ≠ ch ';' := by
  revert c
  decide

theorem upperhex_spec (c : Byte) :
    ishex (upperhex (c.val / 16)) = true ∧ ishex (upperhex (c.val % 16)) = true ∧
    Fin.ofNat (16 * unhex (upperhex (c.val / 16)) + unhex (upperhex (c.val % 16))) = c ∧
    upperhex (c.val / 16) ≠ ch '&' ∧ upperhex (c.val / 16) ≠ ch '=' ∧
    upperhex (c.val / 16) ≠ ch ';' ∧ upperhex (c.val % 16) ≠ ch '&' ∧
    upperhex (c.val % 16) ≠ ch '=' ∧ upperhex (c.val % 16) ≠ ch ';' := by
  revert c
  decide

/-- Unescaping steps over a byte that is neither `%` nor `+`. -/
theorem QueryUnescape_plain (c : Byte) (r : GoString) (h1 : c ≠ ch '%') (h2 : c ≠ ch '+') :
    QueryUnescape (c :: r) = (QueryUnescape r).map (fun t => c :: t) := by
  rcases r with _ | ⟨a, _ | ⟨b, r⟩⟩ <;> simp [QueryUnescape, h1, h2]

/-- Unescaping turns `+` into a space. -/
theorem QueryUnescape_plus (r : GoString) :
    QueryUnescape (ch '+' :: r) = (QueryUnescape r).map (fun t => ch ' ' :: t) := by
  have h : ch '+' ≠ ch '%' := by decide
  rcases r with _ | ⟨a, _ | ⟨b, r⟩⟩ <;> simp [QueryUnescape, h]

/-- Unescaping reads `%` and two hexadecimal digits as one byte. -/
theorem QueryUnescape_hex (a b : Byte) (r : GoString) (ha : ishex a = true)
    (hb : ishex b = true) :
    QueryUnescape (ch '%' :: a :: b :: r) =
      (QueryUnescape r).map (fun t => Fin.ofNat (16 * unhex a + unhex b) :: t) := by
  simp [QueryUnescape, ha, hb]

/-- Unescaping undoes the escaping of one byte. -/
theorem QueryUnescape_escapeByte (c : Byte) (r : GoString) :
    QueryUnescape (escapeByte c ++ r) = (QueryUnescape r).map (fun t => c :: t) := by
  unfold escapeByte
  cases hs : shouldEscape c
  · obtain ⟨h1, h2, -⟩ := shouldEscape_false c hs
    simpa using QueryUnescape_plain c r h1 h2
  · by_cases hsp : c = ch ' '
    · subst hsp
      simpa using QueryUnescape_plus r
    · obtain ⟨ha, hb, hv, -⟩ := upperhex_spec c
      simp only [if_true, hsp, if_false, List.cons_append, List.nil_append]
      rw [QueryUnescape_hex _ _ _ ha hb, hv]

/-- Unescaping undoes escaping. -/
theorem QueryUnescape_QueryEscape (s : GoString) : QueryUnescape (QueryEscape s) = some s := by
  induction s with
  | nil => simp [QueryEscape, QueryUnescape]
  | cons c s ih =>
    have h : QueryEscape (c :: s) = escapeByte c ++ QueryEscape s := by simp [QueryEscape]
    rw [h, QueryUnescape_escapeByte, ih]
    rfl

/-- An escaped text holds none of the separators of a query string. -/
theorem QueryEscape_clean (s : GoString) (x : Byte) (hx : x ∈ QueryEscape s) :
    x ≠ ch '&' ∧ x ≠ ch '=' ∧ x ≠ ch ';' := by
  simp only [QueryEscape, List.mem_flatMap] at hx
  obtain ⟨c, -, hc⟩ := hx
  unfold escapeByte at hc
  cases hs : shouldEscape c
  · obtain ⟨-, -, h3, h4, h5⟩ := shouldEscape_false c hs
    simp [hs] at hc
    subst hc
    exact ⟨h3, h4, h5⟩
  · obtain ⟨-, -, -, a1, a2, a3, b1, b2, b3⟩ := upperhex_spec c
    by_cases hsp : c = ch ' '
    · subst hsp
      simp only [hs, if_true, List.mem_singleton] at hc
      subst hc
      decide
    · simp [hs, hsp] at hc
      rcases hc with hc | hc | hc
      · subst hc; decide
      · subst hc; exact ⟨a1, a2, a3⟩
      · subst hc; exact ⟨b1, b2, b3⟩

/-- Cutting at the first separator of a text whose head is free of it. -/
theorem cut_append (sep : Byte) (a b : GoString) (ha : sep ∉ a) :
    cut sep (a ++ sep :: b) = (a, b, true) := by
  induction a with
  | nil => simp [cut]
  | cons c a ih =>
    have hc : c ≠ sep := fun h => ha (by simp [h])
    have ha2 : sep ∉ a := fun h => ha (by simp [h])
    simp [cut, hc, ih ha2]

/-- Cutting a text free of the separator. -/
theorem cut_clean (sep : Byte) (a : GoString) (ha : sep ∉ a) : cut sep a = (a, [], false) := by
  induction a with
  | nil => simp [cut]
  | cons c a ih =>
    have hc : c ≠ sep := fun h => ha (by simp [h])
    have ha2 : sep ∉ a := fun h => ha (by simp [h])
    simp [cut, hc, ih ha2]

/-- Splitting a text free of the separator. -/
theorem splitOn_clean (sep : Byte) (a : GoString) (ha : sep ∉ a) : splitOn sep a = [a] := by
  induction a with
  | nil => simp [splitOn]
  | cons c a ih =>
    have hc : c ≠ sep := fun h => ha (by simp [h])
    have ha2 : sep ∉ a := fun h => ha (by simp [h])
    simp [splitOn, hc, ih ha2]

/-- Splitting after a head free of the separator. -/
theorem splitOn_append (sep : Byte) (a b : GoString) (ha : sep ∉ a) :
    splitOn sep (a ++ sep :: b) = a :: splitOn sep b := by
  induction a with
  | nil => simp [splitOn]
  | cons c a ih =>
    have hc : c ≠ sep := fun h => ha (by simp [h])
    have ha2 : sep ∉ a := fun h => ha (by simp [h])
    simp [splitOn, hc, ih ha2]

/-- Splitting undoes joining, for pieces free of the separator. -/
theorem splitOn_joinWith (sep : Byte) (ps : List GoString) (hne : ps ≠ [])
    (hps : ∀ p ∈ ps, sep ∉ p) : splitOn sep (joinWith sep ps) = ps := by
  induction ps with
  | nil => exact absurd rfl hne
  | cons p ps ih =>
    cases ps with
    | nil => simpa [joinWith] using splitOn_clean sep p (hps p (by simp))
    | cons q ps =>
      have hp : sep ∉ p := hps p (by simp)
      have hrest : ∀ r ∈ q :: ps, sep ∉ r := fun r hr => hps r (List.mem_cons_of_mem _ hr)
      simp only [joinWith]
      rw [splitOn_append sep p _ hp, ih (by simp) hrest]


/-- The loop of `ParseQuery` on an escaped pair adds the pair to the map. -/
theorem parseQueryPiece_escaped (m : Values) (k v : GoString) :
    parseQueryPiece m (QueryEscape k ++ ch '=' :: QueryEscape v) = m.append k v := by
  have hk : ch '=' ∉ QueryEscape k := fun h => (QueryEscape_clean k _ h).2.1 rfl
  have hsemi : (QueryEscape k ++ ch '=' :: QueryEscape v).contains (ch ';') = false := by
    rw [Bool.eq_false_iff]
    intro h
    have h : ch ';' ∈ QueryEscape k ++ ch '=' :: QueryEscape v := by simpa using h
    rw [List.mem_append, List.mem_cons] at h
    rcases h with h | h | h
    · exact (QueryEscape_clean k _ h).2.2 rfl
    · exact absurd h (by decide)
    · exact (QueryEscape_clean v _ h).2.2 rfl
  have hne : QueryEscape k ++ ch '=' :: QueryEscape v ≠ [] := by simp
  simp only [parseQueryPiece, hsemi, hne, if_false, Bool.false_eq_true, cut_append _ _ _ hk,
    QueryUnescape_QueryEscape]

theorem flatMap_encodeEntry (m : Values) : m.flatMap encodeEntry = (pairsOf m).map encodePair := by
  induction m with
  | nil => rfl
  | cons e m ih =>
    simp only [List.flatMap_cons, pairsOf, List.map_append, List.map_map] at ih ⊢
    rw [ih]
    rfl

/-- Parsing the joined escaped pairs adds them to the map one by one. -/
theorem foldl_parseQueryPiece (pairs : List (GoString × GoString)) (m : Values) :
    (pairs.map encodePair).foldl parseQueryPiece m =
      pairs.foldl (fun (acc : Values) p => acc.append p.1 p.2) m := by
  induction pairs generalizing m with
  | nil => rfl
  | cons p pairs ih =>
    simp only [List.map_cons, List.foldl_cons, encodePair, parseQueryPiece_escaped]
    exact ih _

theorem encodePair_clean (p : GoString × GoString) : ch '&' ∉ encodePair p := by
  intro h
  rw [encodePair, List.mem_append, List.mem_cons] at h
  rcases h with h | h | h
  · exact (QueryEscape_clean _ _ h).1 rfl
  · exact absurd h (by decide)
  · exact (QueryEscape_clean _ _ h).1 rfl

/-- Parsing an encoded list of pairs gives the map built from the pairs. -/
theorem ParseQuery_joinWith (pairs : List (GoString × GoString)) :
    ParseQuery (joinWith (ch '&') (pairs.map encodePair)) =
      pairs.foldl (fun (acc : Values) p => acc.append p.1 p.2) [] := by
  unfold ParseQuery
  cases pairs with
  | nil => simp [joinWith, splitOn, parseQueryPiece]
  | cons p pairs =>
    rw [splitOn_joinWith _ _ (by simp), foldl_parseQueryPiece]
    intro q hq
    rw [List.mem_map] at hq
    obtain ⟨x, -, rfl⟩ := hq
    exact encodePair_clean x

theorem Values.index_append (m : Values) (k v key : GoString) :
    (m.append k v).index key = if k = key then m.index key ++ [v] else m.index key := by
  induction m with
  | nil => by_cases h : k = key <;> simp [Values.append, Values.index, h]
  | cons e m ih =>
    obtain ⟨k1, vs⟩ := e
    by_cases h1 : k1 = k
    · subst h1
      by_cases h : k1 = key <;> simp [Values.append, Values.index, h]
    · by_cases h2 : k1 = key
      · subst h2
        have : ¬ k = k1 := fun h => h1 h.symm
        simp [Values.append, Values.index, h1, this]
      · simp [Values.append, Values.index, h1, h2, ih]

theorem Values.index_foldl_append (pairs : List (GoString × GoString)) (m : Values)
    (key : GoString) :
    (pairs.foldl (fun (acc : Values) p => acc.append p.1 p.2) m).index key =
      m.index key ++ (pairs.filter (fun p => p.1 = key)).map Prod.snd := by
  induction pairs generalizing m with
  | nil => simp
  | cons p pairs ih =>
    rw [List.foldl_cons, ih, Values.index_append]
    by_cases h : p.1 = key <;> simp [h, List.filter_cons]

theorem Values.index_Set (m : Values) (k v key : GoString) :
    (m.Set k v).index key = if k = key then [v] else m.index key := by
  induction m with
  | nil => by_cases h : k = key <;> simp [Values.Set, Values.index, h]
  | cons e m ih =>
    obtain ⟨k1, vs⟩ := e
    by_cases h1 : k1 = k
    · subst h1
      by_cases h : k1 = key <;> simp [Values.Set, Values.index, h]
    · by_cases h2 : k1 = key
      · subst h2
        have : ¬ k = k1 := fun h => h1 h.symm
        simp [Values.Set, Values.index, h1, this]
      · simp [Values.Set, Values.index, h1, h2, ih]

theorem Values.keys_append (m : Values) (k v : GoString) :
    (m.append k v).keys = if k ∈ m.keys then m.keys else m.keys ++ [k] := by
  induction m with
  | nil => simp [Values.append, Values.keys]
  | cons e m ih =>
    obtain ⟨k1, vs⟩ := e
    by_cases h1 : k1 = k
    · subst h1
      simp [Values.append, Values.keys]
    · have h2 : ¬ k = k1 := fun h => h1 h.symm
      simp only [Values.keys] at ih
      simp only [Values.append, h1, if_false, Values.keys, List.map_cons, ih, List.mem_cons, h2,
        false_or]
      split <;> simp

theorem Values.nodup_append (m : Values) (k v : GoString) (h : m.keys.Nodup) :
    (m.append k v).keys.Nodup := by
  rw [Values.keys_append]
  split
  · exact h
  · rename_i hk
    exact List.Nodup.append h (List.nodup_singleton k) (by simpa using hk)

theorem nodup_parseQueryPiece (m : Values) (piece : GoString) (h : m.keys.Nodup) :
    (parseQueryPiece m piece).keys.Nodup := by
  unfold parseQueryPiece
  split
  · exact h
  · split
    · exact h
    · dsimp only
      split
      · exact h
      · split
        · exact h
        · exact Values.nodup_append _ _ _ h

/-- A map produced by `ParseQuery` has each key once. -/
theorem nodup_ParseQuery (query : GoString) : (ParseQuery query).keys.Nodup := by
  unfold ParseQuery
  have : ∀ (ps : List GoString) (m : Values), m.keys.Nodup →
      (ps.foldl parseQueryPiece m).keys.Nodup := by
    intro ps
    induction ps with
    | nil => intro m h; exact h
    | cons p ps ih => intro m h; exact ih _ (nodup_parseQueryPiece m p h)
  exact this _ _ (by simp [Values.keys])

theorem Values.filter_Set (m : Values) (k v : GoString) (h : m.keys.Nodup) :
    (m.Set k v).filter (fun e => e.1 = k) = [(k, [v])] := by
  induction m with
  | nil => simp [Values.Set]
  | cons e m ih =>
    obtain ⟨k1, vs⟩ := e
    simp only [Values.keys, List.map_cons, List.nodup_cons] at h
    by_cases h1 : k1 = k
    · subst h1
      have hrest : m.filter (fun e => e.1 = k1) = [] := by
        rw [List.filter_eq_nil_iff]
        intro e he hk
        exact h.1 (List.mem_map.mpr ⟨e, he, by simpa using hk⟩)
      simp [Values.Set, List.filter_cons, hrest]
    · simp only [Values.Set, h1, if_false, List.filter_cons, decide_False, Bool.false_eq_true]
      exact ih h.2

theorem pairsOf_filter (m : Values) (key : GoString) :
    (pairsOf m).filter (fun p => p.1 = key) = pairsOf (m.filter (fun e => e.1 = key)) := by
  induction m with
  | nil => rfl
  | cons e m ih =>
    obtain ⟨k1, vs⟩ := e
    simp only [pairsOf, List.flatMap_cons, List.filter_append] at ih ⊢
    rw [ih]
    by_cases h : k1 = key
    · simp [List.filter_cons, h, List.filter_map, Function.comp_def]
    · simp [List.filter_cons, h, List.filter_map, Function.comp_def]

/-- Parsing an encoded map gives, for a key held once, the values of that key. -/
theorem index_ParseQuery_Encode_Set (m : Values) (k v : GoString) (h : m.keys.Nodup) :
    (ParseQuery (m.Set k v).Encode).index k = [v] := by
  unfold Values.Encode
  rw [flatMap_encodeEntry, ParseQuery_joinWith, Values.index_foldl_append, pairsOf_filter]
  have hperm : ((m.Set k v).insertionSort (fun a b => goStringLE a.1 b.1 = true)).filter
      (fun e => e.1 = k) = [(k, [v])] := by
    have hp := (List.perm_insertionSort (fun a b : GoString × List GoString =>
      goStringLE a.1 b.1 = true) (m.Set k v)).filter (fun e => decide (e.1 = k))
    rw [Values.filter_Set m k v h] at hp
    exact List.perm_singleton.mp hp
  rw [hperm]
  simp [pairsOf, Values.index]

/-! ## Decoding well-formed documents -/

theorem indexWhere_none {p : GoString → Bool} {names : List GoString}
    (h : indexWhere p names = none) : ∀ n ∈ names, p n = false := by
  induction names with
  | nil => intro n hn; cases hn
  | cons a names ih =>
    intro n hn
    simp only [indexWhere] at h
    by_cases ha : p a = true
    · simp [ha] at h
    · simp only [ha, Bool.false_eq_true, if_false, Option.map_eq_none'] at h
      rcases List.mem_cons.mp hn with rfl | hn
      · simpa using ha
      · exact ih h n hn

/-- A member name that selects no field is none of the tags. -/
theorem not_mem_of_findField_none {lib : GoLib} {names : List GoString} {k : GoString}
    (h : findField lib names k = none) : k ∉ names := by
  intro hk
  unfold findField at h
  cases hi : indexWhere (fun n => n == k) names with
  | some i => simp [hi] at h
  | none => simpa using indexWhere_none hi k hk

theorem knownMembers_cons {lib : GoLib} {names : List GoString} {k : GoString} {v : JValue}
    {ms : List (GoString × JValue)} (h : knownMembers lib names ((k, v) :: ms)) :
    (k ∈ names ∨ findField lib names k = none) ∧ memberOf k ms = none ∧
      knownMembers lib names ms := by
  obtain ⟨hnd, hsub⟩ := h
  simp only [List.map_cons, List.nodup_cons] at hnd
  refine ⟨hsub k (by simp), ?_, hnd.2, fun x hx => hsub x (by simp [hx])⟩
  have : ∀ (l : List (GoString × JValue)), k ∉ l.map Prod.fst → memberOf k l = none := by
    intro l
    induction l with
    | nil => intro _; rfl
    | cons e l ih =>
      intro hk
      simp only [List.map_cons, List.mem_cons, not_or] at hk
      simp only [memberOf]
      rw [if_neg (fun h => hk.1 h.symm)]
      exact ih hk.2
  exact this ms hnd.1

theorem stringMember_same {k : GoString} {v : JValue} {ms : List (GoString × JValue)}
    {key : String} {old new : GoString} (hk : k = goStr key) (hnone : memberOf k ms = none)
    (h : stringMember ((k, v) :: ms) key old new) :
    v = .string new ∧ stringMember ms key new new := by
  subst hk
  simp only [stringMember, memberOf, if_true] at h
  rcases h with h | ⟨h, -⟩
  · exact ⟨by simpa using h, Or.inr ⟨hnone, rfl⟩⟩
  · cases h

theorem stringMember_other {k : GoString} {v : JValue} {ms : List (GoString × JValue)}
    {key : String} {old new : GoString} (hk : k ≠ goStr key)
    (h : stringMember ((k, v) :: ms) key old new) : stringMember ms key old new := by
  simpa only [stringMember, memberOf, if_neg hk] using h

theorem intMember_same {k : GoString} {v : JValue} {ms : List (GoString × JValue)}
    {key : String} {old new : Int} (hk : k = goStr key) (hnone : memberOf k ms = none)
    (h : intMember ((k, v) :: ms) key old new) :
    (v = .number (.int new) ∧ -(2 : Int) ^ 63 ≤ new ∧ new < (2 : Int) ^ 63) ∧
      intMember ms key new new := by
  subst hk
  simp only [intMember, memberOf, if_true] at h
  rcases h with ⟨h, hr⟩ | ⟨h, -⟩
  · exact ⟨⟨by simpa using h, hr⟩, Or.inr ⟨hnone, rfl⟩⟩
  · cases h

theorem intMember_other {k : GoString} {v : JValue} {ms : List (GoString × JValue)}
    {key : String} {old new : Int} (hk : k ≠ goStr key)
    (h : intMember ((k, v) :: ms) key old new) : intMember ms key old new := by
  simpa only [intMember, memberOf, if_neg hk] using h

theorem objectMember_same {k : GoString} {v : JValue} {ms : List (GoString × JValue)}
    {key : String} {inner : List (GoString × JValue) → Prop} {unchanged : Prop}
    (hk : k = goStr key) (h : objectMember ((k, v) :: ms) key inner unchanged) :
    ∃ sub, v = .object sub ∧ inner sub := by
  subst hk
  simp only [objectMember, memberOf, if_true] at h
  rcases h with ⟨sub, h, hin⟩ | ⟨h, -⟩
  · exact ⟨sub, by simpa using h, hin⟩
  · cases h

theorem objectMember_other {k : GoString} {v : JValue} {ms : List (GoString × JValue)}
    {key : String} {inner : List (GoString × JValue) → Prop} {unchanged : Prop}
    (hk : k ≠ goStr key) (h : objectMember ((k, v) :: ms) key inner unchanged) :
    objectMember ms key inner unchanged := by
  simpa only [objectMember, memberOf, if_neg hk] using h

theorem stringMember_nil {key : String} {old new : GoString}
    (h : stringMember [] key old new) : new = old := by
  rcases h with h | ⟨-, h⟩
  · cases h
  · exact h

theorem intMember_nil {key : String} {old new : Int}
    (h : intMember [] key old new) : new = old := by
  rcases h with ⟨h, -⟩ | ⟨-, h⟩
  · cases h
  · exact h

theorem objectMember_nil {key : String} {inner : List (GoString × JValue) → Prop}
    {unchanged : Prop} (h : objectMember [] key inner unchanged) : unchanged := by
  rcases h with ⟨sub, h, -⟩ | ⟨-, h⟩
  · cases h
  · exact h

/-- Decoding the members of a links object that carries given values yields
these values. -/
theorem decode_linksMembers (lib : GoLib) (ms : List (GoString × JValue))
    (old new : ResponseLinks) (h : linksMembers lib ms old new) :
    decodeMembers (ResponseLinks.setField lib) ms old = .ok new := by
  induction ms generalizing old with
  | nil =>
    obtain ⟨-, h1, h2, h3, h4, h5, h6⟩ := h
    have e1 := stringMember_nil h1
    have e2 := stringMember_nil h2
    have e3 := stringMember_nil h3
    have e4 := stringMember_nil h4
    have e5 := stringMember_nil h5
    have e6 := stringMember_nil h6
    cases old; cases new
    simp_all [decodeMembers]
  | cons e ms ih =>
    obtain ⟨k, v⟩ := e
    obtain ⟨hk, h1, h2, h3, h4, h5, h6⟩ := h
    obtain ⟨hmem, hnone, hrest⟩ := knownMembers_cons hk
    rcases hmem with hmem | hign
    · simp only [linksNames, List.mem_cons, List.mem_singleton, List.not_mem_nil,
        or_false] at hmem
      rcases hmem with rfl | rfl | rfl | rfl | rfl | rfl
      · obtain ⟨rfl, h1'⟩ := stringMember_same rfl hnone h1
        have hf : findField lib linksNames (goStr "first") = some 0 := rfl
        simp only [decodeMembers, ResponseLinks.setField, hf, decodeString, Except.map]
        exact ih _ ⟨hrest, h1', stringMember_other (by decide) h2, stringMember_other (by
          decide) h3, stringMember_other (by decide) h4, stringMember_other (by decide) h5,
          stringMember_other (by decide) h6⟩
      · obtain ⟨rfl, h2'⟩ := stringMember_same rfl hnone h2
        have hf : findField lib linksNames (goStr "last") = some 1 := rfl
        simp only [decodeMembers, ResponseLinks.setField, hf, decodeString, Except.map]
        exact ih _ ⟨hrest, stringMember_other (by decide) h1, h2', stringMember_other (by
          decide) h3, stringMember_other (by decide) h4, stringMember_other (by decide) h5,
          stringMember_other (by decide) h6⟩
      · obtain ⟨rfl, h3'⟩ := stringMember_same rfl hnone h3
        have hf : findField lib linksNames (goStr "next") = some 2 := rfl
        simp only [decodeMembers, ResponseLinks.setField, hf, decodeString, Except.map]
        exact ih _ ⟨hrest, stringMember_other (by decide) h1, stringMember_other (by decide) h2,
          h3', stringMember_other (by decide) h4, stringMember_other (by decide) h5,
          stringMember_other (by decide) h6⟩
      · obtain ⟨rfl, h4'⟩ := stringMember_same rfl hnone h4
        have hf : findField lib linksNames (goStr "prev") = some 3 := rfl
        simp only [decodeMembers, ResponseLinks.setField, hf, decodeString, Except.map]
        exact ih _ ⟨hrest, stringMember_other (by decide) h1, stringMember_other (by decide) h2,
          stringMember_other (by decide) h3, h4', stringMember_other (by decide) h5,
          stringMember_other (by decide) h6⟩
      · obtain ⟨rfl, h5'⟩ := stringMember_same rfl hnone h5
        have hf : findField lib linksNames (goStr "related") = some 4 := rfl
        simp only [decodeMembers, ResponseLinks.setField, hf, decodeString, Except.map]
        exact ih _ ⟨hrest, stringMember_other (by decide) h1, stringMember_other (by decide) h2,
          stringMember_other (by decide) h3, stringMember_other (by decide) h4, h5',
          stringMember_other (by decide) h6⟩
      · obtain ⟨rfl, h6'⟩ := stringMember_same rfl hnone h6
        have hf : findField lib linksNames (goStr "self") = some 5 := rfl
        simp only [decodeMembers, ResponseLinks.setField, hf, decodeString, Except.map]
        exact ih _ ⟨hrest, stringMember_other (by decide) h1, stringMember_other (by decide) h2,
          stringMember_other (by decide) h3, stringMember_other (by decide) h4,
          stringMember_other (by decide) h5, h6'⟩
    · have hnot := not_mem_of_findField_none hign
      simp only [decodeMembers, ResponseLinks.setField, hign]
      exact ih _
        ⟨hrest,
          stringMember_other (fun h => hnot (by rw [h]; decide)) h1,
          stringMember_other (fun h => hnot (by rw [h]; decide)) h2,
          stringMember_other (fun h => hnot (by rw [h]; decide)) h3,
          stringMember_other (fun h => hnot (by rw [h]; decide)) h4,
          stringMember_other (fun h => hnot (by rw [h]; decide)) h5,
          stringMember_other (fun h => hnot (by rw [h]; decide)) h6⟩

/-- Decoding the members of an attributes object that carries given values yields
these values. -/
theorem decode_attributesMembers (lib : GoLib) (ms : List (GoString × JValue))
    (old new : ResponseAttributes) (h : attributesMembers lib ms old new) :
    decodeMembers (ResponseAttributes.setField lib) ms old = .ok new := by
  induction ms generalizing old with
  | nil =>
    obtain ⟨-, h1, h2, h3, h4, h5, h6, h7⟩ := h
    have e1 := intMember_nil h1
    have e2 := stringMember_nil h2
    have e3 := stringMember_nil h3
    have e4 := stringMember_nil h4
    have e5 := stringMember_nil h5
    have e6 := stringMember_nil h6
    have e7 := stringMember_nil h7
    cases old; cases new
    simp_all [decodeMembers]
  | cons e ms ih =>
    obtain ⟨k, v⟩ := e
    obtain ⟨hk, h1, h2, h3, h4, h5, h6, h7⟩ := h
    obtain ⟨hmem, hnone, hrest⟩ := knownMembers_cons hk
    rcases hmem with hmem | hign
    · simp only [attributesNames, List.mem_cons, List.mem_singleton, List.not_mem_nil,
        or_false] at hmem
      rcases hmem with rfl | rfl | rfl | rfl | rfl | rfl | rfl
      · obtain ⟨⟨rfl, hlo, hhi⟩, h1'⟩ := intMember_same rfl hnone h1
        have hf : findField lib attributesNames (goStr "access_token_ttl_seconds") = some 0 := rfl
        simp only [decodeMembers, ResponseAttributes.setField, hf, decodeInt, hlo, hhi, and_self, if_true,
          Except.map]
        exact ih _ ⟨hrest, h1', stringMember_other (by decide) h2, stringMember_other (by
          decide) h3, stringMember_other (by decide) h4, stringMember_other (by decide) h5,
          stringMember_other (by decide) h6, stringMember_other (by decide) h7⟩
      · obtain ⟨rfl, h2'⟩ := stringMember_same rfl hnone h2
        have hf : findField lib attributesNames (goStr "auth_type") = some 1 := rfl
        simp only [decodeMembers, ResponseAttributes.setField, hf, decodeString, Except.map]
        exact ih _ ⟨hrest, intMember_other (by decide) h1, h2', stringMember_other (by decide)
          h3, stringMember_other (by decide) h4, stringMember_other (by decide) h5,
          stringMember_other (by decide) h6, stringMember_other (by decide) h7⟩
      · obtain ⟨rfl, h3'⟩ := stringMember_same rfl hnone h3
        have hf : findField lib attributesNames (goStr "client_id") = some 2 := rfl
        simp only [decodeMembers, ResponseAttributes.setField, hf, decodeString, Except.map]
        exact ih _ ⟨hrest, intMember_other (by decide) h1, stringMember_other (by decide) h2,
          h3', stringMember_other (by decide) h4, stringMember_other (by decide) h5,
          stringMember_other (by decide) h6, stringMember_other (by decide) h7⟩
      · obtain ⟨rfl, h4'⟩ := stringMember_same rfl hnone h4
        have hf : findField lib attributesNames (goStr "api_key") = some 3 := rfl
        simp only [decodeMembers, ResponseAttributes.setField, hf, decodeString, Except.map]
        exact ih _ ⟨hrest, intMember_other (by decide) h1, stringMember_other (by decide) h2,
          stringMember_other (by decide) h3, h4', stringMember_other (by decide) h5,
          stringMember_other (by decide) h6, stringMember_other (by decide) h7⟩
      · obtain ⟨rfl, h5'⟩ := stringMember_same rfl hnone h5
        have hf : findField lib attributesNames (goStr "jwks_url") = some 4 := rfl
        simp only [decodeMembers, ResponseAttributes.setField, hf, decodeString, Except.map]
        exact ih _ ⟨hrest, intMember_other (by decide) h1, stringMember_other (by decide) h2,
          stringMember_other (by decide) h3, stringMember_other (by decide) h4, h5',
          stringMember_other (by decide) h6, stringMember_other (by decide) h7⟩
      · obtain ⟨rfl, h6'⟩ := stringMember_same rfl hnone h6
        have hf : findField lib attributesNames (goStr "name") = some 5 := rfl
        simp only [decodeMembers, ResponseAttributes.setField, hf, decodeString, Except.map]
        exact ih _ ⟨hrest, intMember_other (by decide) h1, stringMember_other (by decide) h2,
          stringMember_other (by decide) h3, stringMember_other (by decide) h4,
          stringMember_other (by decide) h5, h6', stringMember_other (by decide) h7⟩
      · obtain ⟨rfl, h7'⟩ := stringMember_same rfl hnone h7
        have hf : findField lib attributesNames (goStr "role_id") = some 6 := rfl
        simp only [decodeMembers, ResponseAttributes.setField, hf, decodeString, Except.map]
        exact ih _ ⟨hrest, intMember_other (by decide) h1, stringMember_other (by decide) h2,
          stringMember_other (by decide) h3, stringMember_other (by decide) h4,
          stringMember_other (by decide) h5, stringMember_other (by decide) h6, h7'⟩
    · have hnot := not_mem_of_findField_none hign
      simp only [decodeMembers, ResponseAttributes.setField, hign]
      exact ih _
        ⟨hrest,
          intMember_other (fun h => hnot (by rw [h]; decide)) h1,
          stringMember_other (fun h => hnot (by rw [h]; decide)) h2,
          stringMember_other (fun h => hnot (by rw [h]; decide)) h3,
          stringMember_other (fun h => hnot (by rw [h]; decide)) h4,
          stringMember_other (fun h => hnot (by rw [h]; decide)) h5,
          stringMember_other (fun h => hnot (by rw [h]; decide)) h6,
          stringMember_other (fun h => hnot (by rw [h]; decide)) h7⟩

/-- Decoding the members of a `jsonapi` object that carries given values yields
these values. -/
theorem decode_jsonAPIMembers (lib : GoLib) (ms : List (GoString × JValue))
    (old new : ResponseJsonAPI) (h : jsonAPIMembers lib ms old new) :
    decodeMembers (ResponseJsonAPI.setField lib) ms old = .ok new := by
  induction ms generalizing old with
  | nil =>
    obtain ⟨-, h1⟩ := h
    have e1 := stringMember_nil h1
    cases old; cases new
    simp_all [decodeMembers]
  | cons e ms ih =>
    obtain ⟨k, v⟩ := e
    obtain ⟨hk, h1⟩ := h
    obtain ⟨hmem, hnone, hrest⟩ := knownMembers_cons hk
    rcases hmem with hmem | hign
    · simp only [List.mem_cons, List.mem_singleton, List.not_mem_nil, or_false] at hmem
      subst hmem
      obtain ⟨rfl, h1'⟩ := stringMember_same rfl hnone h1
      have hf : findField lib [goStr "version"] (goStr "version") = some 0 := rfl
      simp only [decodeMembers, ResponseJsonAPI.setField, hf, decodeString, Except.map]
      exact ih _ ⟨hrest, h1'⟩
    · have hnot := not_mem_of_findField_none hign
      simp only [decodeMembers, ResponseJsonAPI.setField, hign]
      exact ih _
        ⟨hrest,
          stringMember_other (fun h => hnot (by rw [h]; decide)) h1⟩

/-- Decoding the members of a `data` object that carries given values yields
these values. -/
theorem decode_dataMembers (lib : GoLib) (ms : List (GoString × JValue))
    (old new : ResponseData) (h : dataMembers lib ms old new) :
    decodeMembers (ResponseData.setField lib) ms old = .ok new := by
  induction ms generalizing old with
  | nil =>
    obtain ⟨-, h1, h2, h3, h4⟩ := h
    have e1 := objectMember_nil h1
    have e2 := stringMember_nil h2
    have e3 := objectMember_nil h3
    have e4 := stringMember_nil h4
    cases old; cases new
    simp_all [decodeMembers]
  | cons e ms ih =>
    obtain ⟨k, v⟩ := e
    obtain ⟨hk, h1, h2, h3, h4⟩ := h
    obtain ⟨hmem, hnone, hrest⟩ := knownMembers_cons hk
    rcases hmem with hmem | hign
    · simp only [dataNames, List.mem_cons, List.mem_singleton, List.not_mem_nil,
        or_false] at hmem
      rcases hmem with rfl | rfl | rfl | rfl
      · obtain ⟨sub, rfl, hsub⟩ := objectMember_same rfl h1
        have h1' : objectMember ms "attributes"
            (fun sub => attributesMembers lib sub new.Attributes new.Attributes) (new.Attributes = new.Attributes) :=
          Or.inr ⟨hnone, rfl⟩
        have hf : findField lib dataNames (goStr "attributes") = some 0 := rfl
        simp only [decodeMembers, ResponseData.setField, hf, decodeStruct,
          decode_attributesMembers lib sub _ _ hsub, Except.map]
        exact ih _ ⟨hrest, h1', stringMember_other (by decide) h2, objectMember_other (by
          decide) h3, stringMember_other (by decide) h4⟩
      · obtain ⟨rfl, h2'⟩ := stringMember_same rfl hnone h2
        have hf : findField lib dataNames (goStr "id") = some 1 := rfl
        simp only [decodeMembers, ResponseData.setField, hf, decodeString, Except.map]
        exact ih _ ⟨hrest, objectMember_other (by decide) h1, h2', objectMember_other (by
          decide) h3, stringMember_other (by decide) h4⟩
      · obtain ⟨sub, rfl, hsub⟩ := objectMember_same rfl h3
        have h3' : objectMember ms "links"
            (fun sub => linksMembers lib sub new.Links new.Links) (new.Links = new.Links) :=
          Or.inr ⟨hnone, rfl⟩
        have hf : findField lib dataNames (goStr "links") = some 2 := rfl
        simp only [decodeMembers, ResponseData.setField, hf, decodeStruct,
          decode_linksMembers lib sub _ _ hsub, Except.map]
        exact ih _ ⟨hrest, objectMember_other (by decide) h1, stringMember_other (by decide) h2,
          h3', stringMember_other (by decide) h4⟩
      · obtain ⟨rfl, h4'⟩ := stringMember_same rfl hnone h4
        have hf : findField lib dataNames (goStr "type") = some 3 := rfl
        simp only [decodeMembers, ResponseData.setField, hf, decodeString, Except.map]
        exact ih _ ⟨hrest, objectMember_other (by decide) h1, stringMember_other (by decide) h2,
          objectMember_other (by decide) h3, h4'⟩
    · have hnot := not_mem_of_findField_none hign
      simp only [decodeMembers, ResponseData.setField, hign]
      exact ih _
        ⟨hrest,
          objectMember_other (fun h => hnot (by rw [h]; decide)) h1,
          stringMember_other (fun h => hnot (by rw [h]; decide)) h2,
          objectMember_other (fun h => hnot (by rw [h]; decide)) h3,
          stringMember_other (fun h => hnot (by rw [h]; decide)) h4⟩

/-- Decoding the members of a top-level object that carries given values yields
these values. -/
theorem decode_responseMembers (lib : GoLib) (ms : List (GoString × JValue))
    (old new : ServiceAccountResponse) (h : responseMembers lib ms old new) :
    decodeMembers (ServiceAccountResponse.setField lib) ms old = .ok new := by
  induction ms generalizing old with
  | nil =>
    obtain ⟨-, h1, h2, h3⟩ := h
    have e1 := objectMember_nil h1
    have e2 := objectMember_nil h2
    have e3 := objectMember_nil h3
    cases old; cases new
    simp_all [decodeMembers]
  | cons e ms ih =>
    obtain ⟨k, v⟩ := e
    obtain ⟨hk, h1, h2, h3⟩ := h
    obtain ⟨hmem, hnone, hrest⟩ := knownMembers_cons hk
    rcases hmem with hmem | hign
    · simp only [responseNames, List.mem_cons, List.mem_singleton, List.not_mem_nil,
        or_false] at hmem
      rcases hmem with rfl | rfl | rfl
      · obtain ⟨sub, rfl, hsub⟩ := objectMember_same rfl h1
        have h1' : objectMember ms "data"
            (fun sub => dataMembers lib sub new.Data new.Data) (new.Data = new.Data) :=
          Or.inr ⟨hnone, rfl⟩
        have hf : findField lib responseNames (goStr "data") = some 0 := rfl
        simp only [decodeMembers, ServiceAccountResponse.setField, hf, decodeStruct,
          decode_dataMembers lib sub _ _ hsub, Except.map]
        exact ih _ ⟨hrest, h1', objectMember_other (by decide) h2, objectMember_other (by
          decide) h3⟩
      · obtain ⟨sub, rfl, hsub⟩ := objectMember_same rfl h2
        have h2' : objectMember ms "jsonapi"
            (fun sub => jsonAPIMembers lib sub new.JsonAPI new.JsonAPI) (new.JsonAPI = new.JsonAPI) :=
          Or.inr ⟨hnone, rfl⟩
        have hf : findField lib responseNames (goStr "jsonapi") = some 1 := rfl
        simp only [decodeMembers, ServiceAccountResponse.setField, hf, decodeStruct,
          decode_jsonAPIMembers lib sub _ _ hsub, Except.map]
        exact ih _ ⟨hrest, objectMember_other (by decide) h1, h2', objectMember_other (by
          decide) h3⟩
      · obtain ⟨sub, rfl, hsub⟩ := objectMember_same rfl h3
        have h3' : objectMember ms "links"
            (fun sub => linksMembers lib sub new.Links new.Links) (new.Links = new.Links) :=
          Or.inr ⟨hnone, rfl⟩
        have hf : findField lib responseNames (goStr "links") = some 2 := rfl
        simp only [decodeMembers, ServiceAccountResponse.setField, hf, decodeStruct,
          decode_linksMembers lib sub _ _ hsub, Except.map]
        exact ih _ ⟨hrest, objectMember_other (by decide) h1, objectMember_other (by decide) h2,
          h3'⟩
    · have hnot := not_mem_of_findField_none hign
      simp only [decodeMembers, ServiceAccountResponse.setField, hign]
      exact ih _
        ⟨hrest,
          objectMember_other (fun h => hnot (by rw [h]; decide)) h1,
          objectMember_other (fun h => hnot (by rw [h]; decide)) h2,
          objectMember_other (fun h => hnot (by rw [h]; decide)) h3⟩

/-! ## The outcome of a call, from the response received -/

/-- A call of Create that received a response sent one request, got the
response from the transport, and returns what the response determines. -/
theorem create_received {lib : GoLib} {c : Client} {orgID : GoString}
    {request : ServiceAccountRequest} {res : Response}
    (h : (CreateOrganizationServiceAccount lib c orgID request).received = some res) :
    ∃ req, createRequest lib c orgID request = .ok req ∧ c.httpClient.Do req = .ok res ∧
      CreateOrganizationServiceAccount lib c orgID request =
        { sar := (createResult lib res).1,
          e := (deferredClose (createResult lib res).2.2 (createResult lib res).2.1).1,
          sent := [req],
          received := some res,
          body := some (deferredClose (createResult lib res).2.2 (createResult lib res).2.1).2 } := by
  unfold CreateOrganizationServiceAccount at h ⊢
  cases hreq : createRequest lib c orgID request with
  | error err => simp [hreq] at h
  | ok req =>
    cases hdo : c.httpClient.Do req with
    | error err => simp [hreq, hdo] at h
    | ok res1 =>
      simp only [hreq, hdo] at h ⊢
      have : res1 = res := by simpa using h
      subst this
      exact ⟨req, rfl, hdo, rfl⟩

/-- A call of Delete that received a response sent one request, got the
response from the transport, and returns what the response determines. -/
theorem delete_received {lib : GoLib} {c : Client} {orgID saID : GoString} {res : Response}
    (h : (DeleteOrganizationServiceAccount lib c orgID saID).received = some res) :
    ∃ req, deleteRequest lib c orgID saID = .ok req ∧ c.httpClient.Do req = .ok res ∧
      DeleteOrganizationServiceAccount lib c orgID saID =
        { e := (deferredClose res.Body (deleteResult res)).1,
          sent := [req],
          received := some res,
          body := some (deferredClose res.Body (deleteResult res)).2 } := by
  unfold DeleteOrganizationServiceAccount at h ⊢
  cases hreq : deleteRequest lib c orgID saID with
  | error err => simp [hreq] at h
  | ok req =>
    cases hdo : c.httpClient.Do req with
    | error err => simp [hreq, hdo] at h
    | ok res1 =>
      simp only [hreq, hdo] at h ⊢
      have : res1 = res := by simpa using h
      subst this
      exact ⟨req, rfl, hdo, rfl⟩

/-- A call that received no response returns no response object and an error. -/
theorem create_not_received {lib : GoLib} {c : Client} {orgID : GoString}
    {request : ServiceAccountRequest}
    (h : (CreateOrganizationServiceAccount lib c orgID request).received = none) :
    (CreateOrganizationServiceAccount lib c orgID request).sar = none ∧
    (CreateOrganizationServiceAccount lib c orgID request).e.isSome = true ∧
    (CreateOrganizationServiceAccount lib c orgID request).body = none := by
  unfold CreateOrganizationServiceAccount at h ⊢
  cases hreq : createRequest lib c orgID request with
  | error err => simp
  | ok req =>
    cases hdo : c.httpClient.Do req with
    | error err => simp [hdo]
    | ok res1 => simp [hreq, hdo] at h

/-- The deferred function keeps an error that is already set. -/
theorem deferredClose_some (b : Body) (err : GoError) :
    (deferredClose b (some err)).1 = some err := by
  unfold deferredClose
  cases h : b.Close.1 <;> simp [h]

/-- The deferred function returns the result of `Close` when no error is set. -/
theorem deferredClose_none (b : Body) : (deferredClose b none).1 = b.closeErr := by
  unfold deferredClose
  cases h : b.closeErr <;> simp [Body.Close, h]

/-- The deferred function calls `Close` once. -/
theorem deferredClose_count (b : Body) (e : Option GoError) :
    (deferredClose b e).2.closeCount = b.closeCount + 1 := by
  unfold deferredClose
  cases h : b.closeErr <;> cases e <;> simp [Body.Close, h]

/-- Reading the body leaves the result of `Close` and the counter as they are. -/
theorem createResult_body (lib : GoLib) (res : Response) :
    (createResult lib res).2.2.closeErr = res.Body.closeErr ∧
    (createResult lib res).2.2.closeCount = res.Body.closeCount := by
  unfold createResult
  split
  · dsimp only
    split
    · simp [Body.ReadAll]
    · split <;> simp [Body.ReadAll]
  · simp [Body.ReadAll]

/-- The results of Create for a status other than 201. -/
theorem createResult_other (lib : GoLib) (res : Response) (h : res.StatusCode ≠ 201) :
    (createResult lib res).1 = none ∧
    (createResult lib res).2.1 = some ⟨goStr "invalid status code: " ++ res.Body.content⟩ := by
  simp [createResult, StatusCreated, h, Body.ReadAll]

/-! ## The request handed to the transport -/

/-- The requests Create hands to the transport: the request it built, if it
built one, whatever the transport answers. -/
theorem create_sent (lib : GoLib) (c : Client) (orgID : GoString)
    (request : ServiceAccountRequest) :
    (CreateOrganizationServiceAccount lib c orgID request).sent =
      match createRequest lib c orgID request with
      | .ok req => [req]
      | .error _ => [] := by
  unfold CreateOrganizationServiceAccount
  cases hreq : createRequest lib c orgID request with
  | error err => rfl
  | ok req => cases hdo : c.httpClient.Do req <;> simp [hdo]

/-- The requests Delete hands to the transport: the request it built, if it
built one, whatever the transport answers. -/
theorem delete_sent (lib : GoLib) (c : Client) (orgID saID : GoString) :
    (DeleteOrganizationServiceAccount lib c orgID saID).sent =
      match deleteRequest lib c orgID saID with
      | .ok req => [req]
      | .error _ => [] := by
  unfold DeleteOrganizationServiceAccount
  cases hreq : deleteRequest lib c orgID saID with
  | error err => rfl
  | ok req => cases hdo : c.httpClient.Do req <;> simp [hdo]

/-- A request built by Create is a new POST request, prepared by the client. -/
theorem createRequest_ok {lib : GoLib} {c : Client} {orgID : GoString}
    {request : ServiceAccountRequest} {req : Request}
    (h : createRequest lib c orgID request = .ok req) :
    ∃ text u, lib.jsonEncode (envelope request).toJSON = .ok text ∧
      parseURL lib (c.url ++ goStr "/v3/orgs/" ++ orgID ++ goStr "/service_accounts") = .ok u ∧
      req = c.prepare { Method := MethodPost,
                        URL := { u with Host := removeEmptyPort u.Host },
                        Header := [], Body := some text } := by
  unfold createRequest NewRequestWithContext at h
  cases henc : lib.jsonEncode (envelope request).toJSON with
  | error err => rw [henc] at h; cases h
  | ok text =>
    rw [henc] at h
    cases hurl : parseURL lib (c.url ++ goStr "/v3/orgs/" ++ orgID ++ goStr "/service_accounts") with
    | error err => simp only [hurl] at h; cases h
    | ok u =>
      simp only [hurl] at h
      cases h
      exact ⟨text, u, rfl, rfl, rfl⟩

/-- A request built by Delete is a new DELETE request, prepared by the client. -/
theorem deleteRequest_ok {lib : GoLib} {c : Client} {orgID saID : GoString} {req : Request}
    (h : deleteRequest lib c orgID saID = .ok req) :
    ∃ u, parseURL lib
        (c.url ++ goStr "/v3/orgs/" ++ orgID ++ goStr "/service_accounts/" ++ saID) = .ok u ∧
      req = c.prepare { Method := MethodDelete,
                        URL := { u with Host := removeEmptyPort u.Host },
                        Header := [], Body := none } := by
  unfold deleteRequest NewRequestWithContext at h
  cases hurl : parseURL lib
      (c.url ++ goStr "/v3/orgs/" ++ orgID ++ goStr "/service_accounts/" ++ saID) with
  | error err => simp only [hurl] at h; cases h
  | ok u =>
    simp only [hurl] at h
    cases h
    exact ⟨u, rfl, rfl⟩

/-- A prepared request carries the version as its only value of the query
parameter `version`, and the two headers; prepared from a new request, it has
no other header. -/
theorem prepare_version_and_headers (c : Client) (req : Request) (hnew : req.Header = []) :
    (c.prepare req).URL.Query.index (goStr "version") = [c.version] ∧
    (c.prepare req).Header.Get (goStr "Content-Type") = goStr "application/vnd.api+json" ∧
    (c.prepare req).Header.Get (goStr "Authorization") = c.authorization ∧
    (c.prepare req).Header =
      [(goStr "Content-Type", [goStr "application/vnd.api+json"]),
       (goStr "Authorization", [c.authorization])] := by
  have hne : ¬ goStr "Authorization" = goStr "Content-Type" := by decide
  have hne2 : ¬ goStr "Content-Type" = goStr "Authorization" := by decide
  refine ⟨?_, ?_, ?_, ?_⟩
  · exact index_ParseQuery_Encode_Set _ _ _ (nodup_ParseQuery _)
  · simp [Client.prepare, Header.Get, Header.Set, Values.index_Set, hne]
  · simp [Client.prepare, Header.Get, Header.Set, Values.index_Set]
  · simp [Client.prepare, Header.Set, Values.Set, hnew, hne2]

/-- Parsing a URL without `?` and `#` that the library accepts: nothing is cut
off, and the parts are those the library derives from the whole text. -/
theorem parseURL_clean (lib : GoLib) (url : GoString) (hq : ch '?' ∉ url) (hf : ch '#' ∉ url)
    (hok : lib.urlSyntaxError url = none) :
    parseURL lib url =
      .ok { Scheme := (lib.urlParts url).Scheme, Opaque := (lib.urlParts url).Opaque,
            User := (lib.urlParts url).User, Host := (lib.urlParts url).Host,
            Path := (lib.urlParts url).Path, RawPath := (lib.urlParts url).RawPath,
            RawQuery := [], Fragment := [] } := by
  simp [parseURL, hok, cut_clean _ _ hq, cut_clean _ _ hf]

/-- Preparing a new request whose URL has no query. -/
theorem prepare_new (c : Client) (method : GoString) (u : URL) (body : Option GoString)
    (hu : u.RawQuery = []) :
    c.prepare { Method := method, URL := u, Header := [], Body := body } =
      { Method := method,
        URL := { u with RawQuery := goStr "version=" ++ QueryEscape c.version },
        Header := [(goStr "Content-Type", [goStr "application/vnd.api+json"]),
                   (goStr "Authorization", [c.authorization])],
        Body := body } := by
  have hne : ¬ goStr "Content-Type" = goStr "Authorization" := by decide
  have hv : goStr "version=" = QueryEscape (goStr "version") ++ [ch '='] := by decide
  simp [Client.prepare, URL.Query, hu, ParseQuery, splitOn, parseQueryPiece, Values.Set,
    Values.Encode, encodeEntry, joinWith, Header.Set, hne, hv]

/-! ## Status codes and errors -/

/-- C1. When Create receives a response whose status code is not 201 (200
included), it returns a nil response and an error whose message is
"invalid status code: " followed by the bytes the response body delivers, so
that the message contains the body text; neither an error of the read, which
the code ignores on this path, nor the result of `Close` changes that. -/
theorem create_other_status_error (lib : GoLib) (c : Client) (orgID : GoString)
    (request : ServiceAccountRequest) (res : Response)
    (hres : (CreateOrganizationServiceAccount lib c orgID request).received = some res)
    (hstatus : res.StatusCode ≠ 201) :
    (CreateOrganizationServiceAccount lib c orgID request).sar = none ∧
    ∃ err, (CreateOrganizationServiceAccount lib c orgID request).e = some err ∧
      err.msg = goStr "invalid status code: " ++ res.Body.content ∧
      res.Body.content <:+: err.msg := by
  obtain ⟨req, -, -, hout⟩ := create_received hres
  obtain ⟨h1, h2⟩ := createResult_other lib res hstatus
  rw [hout]
  refine ⟨h1, _, ?_, rfl, ?_⟩
  · simp only [h2, deferredClose_some]
  · exact ⟨goStr "invalid status code: ", [], by simp⟩

/-- Instance of C1: a response 500 with the body "internal error". -/
theorem create_other_status_error_witness :
    (CreateOrganizationServiceAccount sampleLib
        (sampleClient (sampleResponse 500 (goStr "internal error"))) (goStr "org-1")
        scenarioRequest).received = some (sampleResponse 500 (goStr "internal error")) ∧
    (sampleResponse 500 (goStr "internal error")).StatusCode ≠ 201 ∧
    (CreateOrganizationServiceAccount sampleLib
        (sampleClient (sampleResponse 500 (goStr "internal error"))) (goStr "org-1")
        scenarioRequest).sar = none ∧
    ∃ err, (CreateOrganizationServiceAccount sampleLib
        (sampleClient (sampleResponse 500 (goStr "internal error"))) (goStr "org-1")
        scenarioRequest).e = some err ∧
      err.msg = goStr "invalid status code: " ++
        (sampleResponse 500 (goStr "internal error")).Body.content ∧
      (sampleResponse 500 (goStr "internal error")).Body.content <:+: err.msg :=
  ⟨by decide, by decide,
    create_other_status_error sampleLib _ (goStr "org-1") scenarioRequest
      (sampleResponse 500 (goStr "internal error")) (by decide) (by decide)⟩

/-- C3. When Delete receives a response and the body closes without error,
the result depends on the status code alone: nil for 204 and for 404, and for
every other code an error whose message is "invalid status code: " followed by
the code in decimal. -/
theorem delete_result_by_status (lib : GoLib) (c : Client) (orgID saID : GoString)
    (res : Response)
    (hres : (DeleteOrganizationServiceAccount lib c orgID saID).received = some res)
    (hclose : res.Body.closeErr = none) :
    (DeleteOrganizationServiceAccount lib c orgID saID).e =
      if res.StatusCode = 204 ∨ res.StatusCode = 404 then none
      else some ⟨goStr "invalid status code: " ++ formatInt res.StatusCode⟩ := by
  obtain ⟨req, -, -, hout⟩ := delete_received hres
  rw [hout]
  simp only [deleteResult, StatusNoContent, StatusNotFound]
  by_cases h204 : res.StatusCode = 204
  · simp [h204, deferredClose_none, hclose]
  · by_cases h404 : res.StatusCode = 404
    · simp [h404, deferredClose_none, hclose]
    · simp [h204, h404, deferredClose_some]

/-- Instances of C3: the scenario of the specification (organization "org-1",
service account "sa-missing", status 404) yields nil, and so does 204, while
500 yields the error "invalid status code: 500". -/
theorem delete_result_by_status_witness :
    ((DeleteOrganizationServiceAccount sampleLib (sampleClient (sampleResponse 404 []))
        (goStr "org-1") (goStr "sa-missing")).received = some (sampleResponse 404 []) ∧
      (sampleResponse 404 []).Body.closeErr = none ∧
      (DeleteOrganizationServiceAccount sampleLib (sampleClient (sampleResponse 404 []))
        (goStr "org-1") (goStr "sa-missing")).e = none) ∧
    (DeleteOrganizationServiceAccount sampleLib (sampleClient (sampleResponse 204 []))
        (goStr "org-1") (goStr "sa-1")).e = none ∧
    (DeleteOrganizationServiceAccount sampleLib (sampleClient (sampleResponse 500 []))
        (goStr "org-1") (goStr "sa-1")).e = some ⟨goStr "invalid status code: 500"⟩ :=
  ⟨⟨by decide, by decide,
      (delete_result_by_status sampleLib _ (goStr "org-1") (goStr "sa-missing")
        (sampleResponse 404 []) (by decide) (by decide)).trans (by decide)⟩,
    (delete_result_by_status sampleLib _ (goStr "org-1") (goStr "sa-1")
        (sampleResponse 204 []) (by decide) (by decide)).trans (by decide),
    (delete_result_by_status sampleLib _ (goStr "org-1") (goStr "sa-1")
        (sampleResponse 500 []) (by decide) (by decide)).trans (by decide)⟩

/-! ## Closing the response body -/

/-- C8. When a response was received, the error a call returns is the error
determined from the response if there is one, whatever `Close` returns, and
the result of `Close` otherwise; in particular it is the determined error when
`Close` succeeds. Create determines no error exactly for a status 201 whose
body is read and decoded, Delete exactly for the statuses 204 and 404. -/
theorem close_error_only_without_earlier_error (lib : GoLib) (c : Client)
    (orgID saID : GoString) (request : ServiceAccountRequest) :
    (∀ res, (CreateOrganizationServiceAccount lib c orgID request).received = some res →
      (CreateOrganizationServiceAccount lib c orgID request).e =
        (match (createResult lib res).2.1 with
         | some earlier => some earlier
         | none => res.Body.closeErr) ∧
      ((createResult lib res).2.1 = none ↔
        res.StatusCode = 201 ∧ res.Body.readErr = none ∧
          ∃ resp, unmarshalResponse lib res.Body.content = .ok resp)) ∧
    (∀ res, (DeleteOrganizationServiceAccount lib c orgID saID).received = some res →
      (DeleteOrganizationServiceAccount lib c orgID saID).e =
        (match deleteResult res with
         | some earlier => some earlier
         | none => res.Body.closeErr) ∧
      (deleteResult res = none ↔ res.StatusCode = 204 ∨ res.StatusCode = 404)) := by
  constructor
  · intro res hres
    obtain ⟨req, -, -, hout⟩ := create_received hres
    rw [hout]
    constructor
    · cases h : (createResult lib res).2.1 with
      | some earlier => simp [deferredClose_some]
      | none => simp [deferredClose_none, (createResult_body lib res).1]
    · unfold createResult
      by_cases hs : res.StatusCode = 201
      · cases hr : res.Body.readErr with
        | some err => simp [hs, StatusCreated, Body.ReadAll, hr]
        | none =>
          cases hu : unmarshalResponse lib res.Body.content with
          | error err => simp [hs, StatusCreated, Body.ReadAll, hr, hu]
          | ok resp => simp [hs, StatusCreated, Body.ReadAll, hr, hu]
      · simp [hs, StatusCreated]
  · intro res hres
    obtain ⟨req, -, -, hout⟩ := delete_received hres
    rw [hout]
    constructor
    · cases h : deleteResult res with
      | some earlier => simp [deferredClose_some]
      | none => simp [deferredClose_none]
    · unfold deleteResult
      by_cases h204 : res.StatusCode = 204
      · simp [h204, StatusNoContent]
      · by_cases h404 : res.StatusCode = 404
        · simp [h404, StatusNoContent, StatusNotFound]
        · simp [h204, h404, StatusNoContent, StatusNotFound]

/-- Instances of C8, with a body that fails to close: Create returns the
status error for 500 and the error of `Close` for 201 with the body of the
scenario; Delete returns the status error for 500 and the error of `Close`
for 204. -/
theorem close_error_only_without_earlier_error_witness :
    ((CreateOrganizationServiceAccount sampleLib
        (sampleClient (sampleResponseCloseFails 500 (goStr "internal error"))) (goStr "org-1")
        scenarioRequest).received =
        some (sampleResponseCloseFails 500 (goStr "internal error")) ∧
      (CreateOrganizationServiceAccount sampleLib
        (sampleClient (sampleResponseCloseFails 500 (goStr "internal error"))) (goStr "org-1")
        scenarioRequest).e = some ⟨goStr "invalid status code: internal error"⟩) ∧
    ((CreateOrganizationServiceAccount sampleLib
        (sampleClient (sampleResponseCloseFails 201 scenarioBody)) (goStr "org-1")
        scenarioRequest).received = some (sampleResponseCloseFails 201 scenarioBody) ∧
      (CreateOrganizationServiceAccount sampleLib
        (sampleClient (sampleResponseCloseFails 201 scenarioBody)) (goStr "org-1")
        scenarioRequest).e = some ⟨goStr "close failed"⟩) ∧
    ((DeleteOrganizationServiceAccount sampleLib
        (sampleClient (sampleResponseCloseFails 500 [])) (goStr "org-1")
        (goStr "sa-1")).received = some (sampleResponseCloseFails 500 []) ∧
      (DeleteOrganizationServiceAccount sampleLib
        (sampleClient (sampleResponseCloseFails 500 [])) (goStr "org-1") (goStr "sa-1")).e =
        some ⟨goStr "invalid status code: 500"⟩) ∧
    ((DeleteOrganizationServiceAccount sampleLib
        (sampleClient (sampleResponseCloseFails 204 [])) (goStr "org-1")
        (goStr "sa-1")).received = some (sampleResponseCloseFails 204 []) ∧
      (DeleteOrganizationServiceAccount sampleLib
        (sampleClient (sampleResponseCloseFails 204 [])) (goStr "org-1") (goStr "sa-1")).e =
        some ⟨goStr "close failed"⟩) :=
  ⟨⟨by decide, ((close_error_only_without_earlier_error sampleLib
        (sampleClient (sampleResponseCloseFails 500 (goStr "internal error"))) (goStr "org-1")
        (goStr "sa-1") scenarioRequest).1
        (sampleResponseCloseFails 500 (goStr "internal error")) (by decide)).1.trans
        (by decide)⟩,
    ⟨by decide, ((close_error_only_without_earlier_error sampleLib
        (sampleClient (sampleResponseCloseFails 201 scenarioBody)) (goStr "org-1")
        (goStr "sa-1") scenarioRequest).1
        (sampleResponseCloseFails 201 scenarioBody) (by decide)).1.trans (by decide)⟩,
    ⟨by decide, ((close_error_only_without_earlier_error sampleLib
        (sampleClient (sampleResponseCloseFails 500 [])) (goStr "org-1")
        (goStr "sa-1") scenarioRequest).2
        (sampleResponseCloseFails 500 []) (by decide)).1.trans (by decide)⟩,
    ⟨by decide, ((close_error_only_without_earlier_error sampleLib
        (sampleClient (sampleResponseCloseFails 204 [])) (goStr "org-1")
        (goStr "sa-1") scenarioRequest).2
        (sampleResponseCloseFails 204 []) (by decide)).1.trans (by decide)⟩⟩

/-- C9. On every path on which a response was received (success, unexpected
status, read or decode failure) the body is closed exactly once: the close
counter of the body the call leaves behind is the counter of the received body
plus one, hence 1 for a body that was never closed before. A call that
received no response leaves no body behind. -/
theorem body_closed_exactly_once (lib : GoLib) (c : Client) (orgID saID : GoString)
    (request : ServiceAccountRequest) :
    ((CreateOrganizationServiceAccount lib c orgID request).body.map Body.closeCount =
      (CreateOrganizationServiceAccount lib c orgID request).received.map
        (fun res => res.Body.closeCount + 1) ∧
     (DeleteOrganizationServiceAccount lib c orgID saID).body.map Body.closeCount =
      (DeleteOrganizationServiceAccount lib c orgID saID).received.map
        (fun res => res.Body.closeCount + 1)) ∧
    (∀ res, (CreateOrganizationServiceAccount lib c orgID request).received = some res →
      res.Body.closeCount = 0 →
      (CreateOrganizationServiceAccount lib c orgID request).body.map Body.closeCount =
        some 1) ∧
    (∀ res, (DeleteOrganizationServiceAccount lib c orgID saID).received = some res →
      res.Body.closeCount = 0 →
      (DeleteOrganizationServiceAccount lib c orgID saID).body.map Body.closeCount =
        some 1) := by
  have hcreate : (CreateOrganizationServiceAccount lib c orgID request).body.map
      Body.closeCount =
      (CreateOrganizationServiceAccount lib c orgID request).received.map
        (fun res => res.Body.closeCount + 1) := by
    cases hres : (CreateOrganizationServiceAccount lib c orgID request).received with
    | none => simp [(create_not_received hres).2.2]
    | some res =>
      obtain ⟨req, -, -, hout⟩ := create_received hres
      rw [hout]
      simp [deferredClose_count, (createResult_body lib res).2]
  have hdelete : (DeleteOrganizationServiceAccount lib c orgID saID).body.map
      Body.closeCount =
      (DeleteOrganizationServiceAccount lib c orgID saID).received.map
        (fun res => res.Body.closeCount + 1) := by
    cases hres : (DeleteOrganizationServiceAccount lib c orgID saID).received with
    | none =>
      have : (DeleteOrganizationServiceAccount lib c orgID saID).body = none := by
        unfold DeleteOrganizationServiceAccount at hres ⊢
        cases hreq : deleteRequest lib c orgID saID with
        | error err => simp
        | ok req =>
          cases hdo : c.httpClient.Do req with
          | error err => simp [hdo]
          | ok res1 => simp [hreq, hdo] at hres
      simp [this]
    | some res =>
      obtain ⟨req, -, -, hout⟩ := delete_received hres
      rw [hout]
      simp [deferredClose_count]
  refine ⟨⟨hcreate, hdelete⟩, ?_, ?_⟩
  · intro res hres hzero
    rw [hcreate, hres]
    simp [hzero]
  · intro res hres hzero
    rw [hdelete, hres]
    simp [hzero]

/-- Instances of C9: for a Create that succeeds, a Create that gets status
500, a Create whose 201 body does not decode, and a Delete that gets 404, the
body is left with the close counter 1. -/
theorem body_closed_exactly_once_witness :
    (CreateOrganizationServiceAccount sampleLib (sampleClient (sampleResponse 201 scenarioBody))
        (goStr "org-1") scenarioRequest).body.map Body.closeCount = some 1 ∧
    (CreateOrganizationServiceAccount sampleLib
        (sampleClient (sampleResponse 500 (goStr "internal error")))
        (goStr "org-1") scenarioRequest).body.map Body.closeCount = some 1 ∧
    (CreateOrganizationServiceAccount sampleLib
        (sampleClient (sampleResponse 201 (goStr "not json")))
        (goStr "org-1") scenarioRequest).body.map Body.closeCount = some 1 ∧
    (DeleteOrganizationServiceAccount sampleLib (sampleClient (sampleResponse 404 []))
        (goStr "org-1") (goStr "sa-missing")).body.map Body.closeCount = some 1 :=
  ⟨(body_closed_exactly_once sampleLib (sampleClient (sampleResponse 201 scenarioBody))
      (goStr "org-1") (goStr "sa-1") scenarioRequest).2.1
      (sampleResponse 201 scenarioBody) (by decide) (by decide),
    (body_closed_exactly_once sampleLib
      (sampleClient (sampleResponse 500 (goStr "internal error")))
      (goStr "org-1") (goStr "sa-1") scenarioRequest).2.1
      (sampleResponse 500 (goStr "internal error")) (by decide) (by decide),
    (body_closed_exactly_once sampleLib
      (sampleClient (sampleResponse 201 (goStr "not json")))
      (goStr "org-1") (goStr "sa-1") scenarioRequest).2.1
      (sampleResponse 201 (goStr "not json")) (by decide) (by decide),
    (body_closed_exactly_once sampleLib (sampleClient (sampleResponse 404 []))
      (goStr "org-1") (goStr "sa-missing") scenarioRequest).2.2
      (sampleResponse 404 []) (by decide) (by decide)⟩

/-- C10. Create returns a response object together with an error exactly when
it received a response with status 201 whose body was read and decoded and
whose `Close` failed; it then returns the decoded response and the error of
`Close`. In every other case exactly one of the two results is non-nil. -/
theorem create_both_results_only_on_close_failure (lib : GoLib) (c : Client)
    (orgID : GoString) (request : ServiceAccountRequest) :
    (((CreateOrganizationServiceAccount lib c orgID request).sar.isSome = true ∧
        (CreateOrganizationServiceAccount lib c orgID request).e.isSome = true) ↔
      ∃ res resp closeError,
        (CreateOrganizationServiceAccount lib c orgID request).received = some res ∧
        res.StatusCode = 201 ∧ res.Body.readErr = none ∧
        unmarshalResponse lib res.Body.content = .ok resp ∧
        res.Body.closeErr = some closeError) ∧
    (∀ res resp closeError,
        (CreateOrganizationServiceAccount lib c orgID request).received = some res →
        res.StatusCode = 201 → res.Body.readErr = none →
        unmarshalResponse lib res.Body.content = .ok resp →
        res.Body.closeErr = some closeError →
        (CreateOrganizationServiceAccount lib c orgID request).sar = some resp ∧
        (CreateOrganizationServiceAccount lib c orgID request).e = some closeError) ∧
    (¬ ((CreateOrganizationServiceAccount lib c orgID request).sar.isSome = true ∧
        (CreateOrganizationServiceAccount lib c orgID request).e.isSome = true) →
      (CreateOrganizationServiceAccount lib c orgID request).sar.isSome =
        !(CreateOrganizationServiceAccount lib c orgID request).e.isSome) := by
  have key : ∀ res, (CreateOrganizationServiceAccount lib c orgID request).received = some res →
      ((res.StatusCode = 201 ∧ res.Body.readErr = none ∧
          ∃ resp, unmarshalResponse lib res.Body.content = .ok resp ∧
            (CreateOrganizationServiceAccount lib c orgID request).sar = some resp ∧
            (CreateOrganizationServiceAccount lib c orgID request).e = res.Body.closeErr) ∨
        ((¬ (res.StatusCode = 201 ∧ res.Body.readErr = none ∧
            ∃ resp, unmarshalResponse lib res.Body.content = .ok resp)) ∧
          (CreateOrganizationServiceAccount lib c orgID request).sar = none ∧
          (CreateOrganizationServiceAccount lib c orgID request).e.isSome = true)) := by
    intro res hres
    obtain ⟨req, -, -, hout⟩ := create_received hres
    rw [hout]
    unfold createResult
    by_cases hs : res.StatusCode = 201
    · cases hr : res.Body.readErr with
      | some err => simp [hs, StatusCreated, Body.ReadAll, hr, deferredClose_some]
      | none =>
        cases hu : unmarshalResponse lib res.Body.content with
        | error err => simp [hs, StatusCreated, Body.ReadAll, hr, hu, deferredClose_some]
        | ok resp => simp [hs, StatusCreated, Body.ReadAll, hr, hu, deferredClose_none]
    · simp [hs, StatusCreated, deferredClose_some]
  refine ⟨⟨?_, ?_⟩, ?_, ?_⟩
  · rintro ⟨h1, h2⟩
    cases hres : (CreateOrganizationServiceAccount lib c orgID request).received with
    | none => simp [(create_not_received hres).1] at h1
    | some res =>
      rcases key res hres with ⟨hs, hr, resp, hu, -, he⟩ | ⟨-, hsar, -⟩
      · rw [he] at h2
        obtain ⟨closeError, hce⟩ := Option.isSome_iff_exists.mp h2
        exact ⟨res, resp, closeError, rfl, hs, hr, hu, hce⟩
      · simp [hsar] at h1
  · rintro ⟨res, resp, closeError, hres, hs, hr, hu, hce⟩
    rcases key res hres with ⟨-, -, resp1, -, hsar, he⟩ | ⟨hno, -, -⟩
    · simp [hsar, he, hce]
    · exact absurd ⟨hs, hr, resp, hu⟩ hno
  · intro res resp closeError hres hs hr hu hce
    rcases key res hres with ⟨-, -, resp1, hu1, hsar, he⟩ | ⟨hno, -, -⟩
    · rw [hu] at hu1
      cases hu1
      exact ⟨hsar, by rw [he, hce]⟩
    · exact absurd ⟨hs, hr, resp, hu⟩ hno
  · intro hnot
    cases hres : (CreateOrganizationServiceAccount lib c orgID request).received with
    | none =>
      obtain ⟨h1, h2, -⟩ := create_not_received hres
      simp [h1, h2]
    | some res =>
      rcases key res hres with ⟨-, -, resp1, -, hsar, he⟩ | ⟨-, hsar, he⟩
      · cases hce : (CreateOrganizationServiceAccount lib c orgID request).e with
        | none => simp [hsar]
        | some err => exact absurd ⟨by simp [hsar], by simp [hce]⟩ hnot
      · simp [hsar, he]

/-- Instance of C10: status 201 with the body of the scenario and a body that
fails to close returns the decoded response and the error of `Close`; the same
response with a body that closes returns the response alone. -/
theorem create_both_results_only_on_close_failure_witness :
    ((CreateOrganizationServiceAccount sampleLib
        (sampleClient (sampleResponseCloseFails 201 scenarioBody)) (goStr "org-1")
        scenarioRequest).sar.isSome = true ∧
      (CreateOrganizationServiceAccount sampleLib
        (sampleClient (sampleResponseCloseFails 201 scenarioBody)) (goStr "org-1")
        scenarioRequest).e = some ⟨goStr "close failed"⟩) ∧
    (¬ ((CreateOrganizationServiceAccount sampleLib
          (sampleClient (sampleResponse 201 scenarioBody)) (goStr "org-1")
          scenarioRequest).sar.isSome = true ∧
        (CreateOrganizationServiceAccount sampleLib
          (sampleClient (sampleResponse 201 scenarioBody)) (goStr "org-1")
          scenarioRequest).e.isSome = true) ∧
      (CreateOrganizationServiceAccount sampleLib
          (sampleClient (sampleResponse 201 scenarioBody)) (goStr "org-1")
          scenarioRequest).sar.isSome =
        !(CreateOrganizationServiceAccount sampleLib
          (sampleClient (sampleResponse 201 scenarioBody)) (goStr "org-1")
          scenarioRequest).e.isSome) :=
  ⟨⟨((create_both_results_only_on_close_failure sampleLib
        (sampleClient (sampleResponseCloseFails 201 scenarioBody)) (goStr "org-1")
        scenarioRequest).1.mpr
        ⟨sampleResponseCloseFails 201 scenarioBody, scenarioResponse, ⟨goStr "close failed"⟩,
          by decide, by decide, by decide, rfl, by decide⟩).1,
      by decide⟩,
    by decide,
    (create_both_results_only_on_close_failure sampleLib
        (sampleClient (sampleResponse 201 scenarioBody)) (goStr "org-1")
        scenarioRequest).2.2 (by decide)⟩

/-- C4. Every request that Create or Delete hands to the transport has the
query parameter `version` with the single value `c.version`, the header
Content-Type "application/vnd.api+json" and the header Authorization
`c.authorization`, and no other header; and which requests are handed over
does not depend on the transport, hence not on the status it returns. -/
theorem sent_requests_carry_version_and_headers (lib : GoLib) (c : Client)
    (orgID saID : GoString) (request : ServiceAccountRequest) :
    (∀ req ∈ (CreateOrganizationServiceAccount lib c orgID request).sent,
      req.URL.Query.index (goStr "version") = [c.version] ∧
      req.Header.Get (goStr "Content-Type") = goStr "application/vnd.api+json" ∧
      req.Header.Get (goStr "Authorization") = c.authorization ∧
      req.Header = [(goStr "Content-Type", [goStr "application/vnd.api+json"]),
                    (goStr "Authorization", [c.authorization])]) ∧
    (∀ req ∈ (DeleteOrganizationServiceAccount lib c orgID saID).sent,
      req.URL.Query.index (goStr "version") = [c.version] ∧
      req.Header.Get (goStr "Content-Type") = goStr "application/vnd.api+json" ∧
      req.Header.Get (goStr "Authorization") = c.authorization ∧
      req.Header = [(goStr "Content-Type", [goStr "application/vnd.api+json"]),
                    (goStr "Authorization", [c.authorization])]) ∧
    (∀ transport : HTTPClient,
      (CreateOrganizationServiceAccount lib { c with httpClient := transport } orgID
          request).sent = (CreateOrganizationServiceAccount lib c orgID request).sent ∧
      (DeleteOrganizationServiceAccount lib { c with httpClient := transport } orgID
          saID).sent = (DeleteOrganizationServiceAccount lib c orgID saID).sent) := by
  refine ⟨?_, ?_, ?_⟩
  · intro req hreq
    rw [create_sent] at hreq
    cases h : createRequest lib c orgID request with
    | error err => simp [h] at hreq
    | ok req1 =>
      simp only [h, List.mem_singleton] at hreq
      subst hreq
      obtain ⟨text, u, -, -, rfl⟩ := createRequest_ok h
      exact prepare_version_and_headers c _ rfl
  · intro req hreq
    rw [delete_sent] at hreq
    cases h : deleteRequest lib c orgID saID with
    | error err => simp [h] at hreq
    | ok req1 =>
      simp only [h, List.mem_singleton] at hreq
      subst hreq
      obtain ⟨u, -, rfl⟩ := deleteRequest_ok h
      exact prepare_version_and_headers c _ rfl
  · intro transport
    constructor
    · rw [create_sent, create_sent]
      rfl
    · rw [delete_sent, delete_sent]
      rfl

/-- Instance of C4: the request Create hands over in the scenario of the
specification. -/
theorem sent_requests_carry_version_and_headers_witness :
    scenarioCreateRequest ∈
      (CreateOrganizationServiceAccount sampleLib (sampleClient (sampleResponse 500 []))
        (goStr "org-1") scenarioRequest).sent ∧
    scenarioCreateRequest.URL.Query.index (goStr "version") =
      [(sampleClient (sampleResponse 500 [])).version] ∧
    scenarioCreateRequest.Header.Get (goStr "Content-Type") =
      goStr "application/vnd.api+json" ∧
    scenarioCreateRequest.Header.Get (goStr "Authorization") =
      (sampleClient (sampleResponse 500 [])).authorization ∧
    scenarioCreateRequest.Header =
      [(goStr "Content-Type", [goStr "application/vnd.api+json"]),
       (goStr "Authorization", [(sampleClient (sampleResponse 500 [])).authorization])] :=
  ⟨by decide,
    (sent_requests_carry_version_and_headers sampleLib (sampleClient (sampleResponse 500 []))
      (goStr "org-1") (goStr "sa-1") scenarioRequest).1 scenarioCreateRequest (by decide)⟩

/-- C5, as amended. When the base URL and the organization ID hold neither
`?` nor `#`, then: if the library accepts the URL and encodes the body, Create
hands over exactly one request, a POST whose scheme, host and path are those
the library derives from the whole text of the base URL followed by
/v3/orgs/{organizationID}/service_accounts (an empty port removed from the
host); and if the service account ID holds neither `?` nor `#` and the library
accepts the URL, Delete hands over exactly one request, a DELETE whose scheme,
host and path are those the library derives from the whole text of the base
URL followed by /v3/orgs/{organizationID}/service_accounts/{serviceAccountID}.
In both nothing of the text is cut off into the query or the fragment: the
raw query is "version=" followed by the escaped API version, and nothing
else, and the fragment is empty. -/
theorem request_line_for_plain_identifiers (lib : GoLib) (c : Client)
    (orgID saID : GoString) (request : ServiceAccountRequest)
    (hbase : ch '?' ∉ c.url ∧ ch '#' ∉ c.url)
    (horg : ch '?' ∉ orgID ∧ ch '#' ∉ orgID) :
    (∀ text,
      lib.urlSyntaxError
        (c.url ++ goStr "/v3/orgs/" ++ orgID ++ goStr "/service_accounts") = none →
      lib.jsonEncode (envelope request).toJSON = .ok text →
      (CreateOrganizationServiceAccount lib c orgID request).sent =
        [{ Method := MethodPost,
           URL :=
             { Scheme := (lib.urlParts
                 (c.url ++ goStr "/v3/orgs/" ++ orgID ++ goStr "/service_accounts")).Scheme,
               Opaque := (lib.urlParts
                 (c.url ++ goStr "/v3/orgs/" ++ orgID ++ goStr "/service_accounts")).Opaque,
               User := (lib.urlParts
                 (c.url ++ goStr "/v3/orgs/" ++ orgID ++ goStr "/service_accounts")).User,
               Host := removeEmptyPort (lib.urlParts
                 (c.url ++ goStr "/v3/orgs/" ++ orgID ++ goStr "/service_accounts")).Host,
               Path := (lib.urlParts
                 (c.url ++ goStr "/v3/orgs/" ++ orgID ++ goStr "/service_accounts")).Path,
               RawPath := (lib.urlParts
                 (c.url ++ goStr "/v3/orgs/" ++ orgID ++ goStr "/service_accounts")).RawPath,
               RawQuery := goStr "version=" ++ QueryEscape c.version,
               Fragment := [] },
           Header := [(goStr "Content-Type", [goStr "application/vnd.api+json"]),
                      (goStr "Authorization", [c.authorization])],
           Body := some text }]) ∧
    (ch '?' ∉ saID ∧ ch '#' ∉ saID →
      lib.urlSyntaxError
        (c.url ++ goStr "/v3/orgs/" ++ orgID ++ goStr "/service_accounts/" ++ saID) = none →
      (DeleteOrganizationServiceAccount lib c orgID saID).sent =
        [{ Method := MethodDelete,
           URL :=
             { Scheme := (lib.urlParts
                 (c.url ++ goStr "/v3/orgs/" ++ orgID ++ goStr "/service_accounts/" ++
                   saID)).Scheme,
               Opaque := (lib.urlParts
                 (c.url ++ goStr "/v3/orgs/" ++ orgID ++ goStr "/service_accounts/" ++
                   saID)).Opaque,
               User := (lib.urlParts
                 (c.url ++ goStr "/v3/orgs/" ++ orgID ++ goStr "/service_accounts/" ++
                   saID)).User,
               Host := removeEmptyPort (lib.urlParts
                 (c.url ++ goStr "/v3/orgs/" ++ orgID ++ goStr "/service_accounts/" ++
                   saID)).Host,
               Path := (lib.urlParts
                 (c.url ++ goStr "/v3/orgs/" ++ orgID ++ goStr "/service_accounts/" ++
                   saID)).Path,
               RawPath := (lib.urlParts
                 (c.url ++ goStr "/v3/orgs/" ++ orgID ++ goStr "/service_accounts/" ++
                   saID)).RawPath,
               RawQuery := goStr "version=" ++ QueryEscape c.version,
               Fragment := [] },
           Header := [(goStr "Content-Type", [goStr "application/vnd.api+json"]),
                      (goStr "Authorization", [c.authorization])],
           Body := none }]) := by
  have hq1 : ch '?' ∉ goStr "/v3/orgs/" := by decide
  have hf1 : ch '#' ∉ goStr "/v3/orgs/" := by decide
  have hq2 : ch '?' ∉ goStr "/service_accounts" := by decide
  have hf2 : ch '#' ∉ goStr "/service_accounts" := by decide
  have hq3 : ch '?' ∉ goStr "/service_accounts/" := by decide
  have hf3 : ch '#' ∉ goStr "/service_accounts/" := by decide
  constructor
  · intro text hcreate hencode
    rw [create_sent]
    have hu := parseURL_clean lib _
      (by simp only [List.mem_append, not_or]; exact ⟨⟨⟨hbase.1, hq1⟩, horg.1⟩, hq2⟩)
      (by simp only [List.mem_append, not_or]; exact ⟨⟨⟨hbase.2, hf1⟩, horg.2⟩, hf2⟩)
      hcreate
    simp only [createRequest, hencode, NewRequestWithContext, hu]
    rw [prepare_new _ _ _ _ rfl]
  · intro hsa hdelete
    rw [delete_sent]
    have hu := parseURL_clean lib _
      (by simp only [List.mem_append, not_or]; exact ⟨⟨⟨⟨hbase.1, hq1⟩, horg.1⟩, hq3⟩, hsa.1⟩)
      (by simp only [List.mem_append, not_or]; exact ⟨⟨⟨⟨hbase.2, hf1⟩, horg.2⟩, hf3⟩, hsa.2⟩)
      hdelete
    simp only [deleteRequest, NewRequestWithContext, hu]
    rw [prepare_new _ _ _ _ rfl]

/-- Instance of the amended C5: the base URL of the sample client, the
organization "org-1" and the service account "sa-1", which hold neither `?`
nor `#`. -/
theorem request_line_for_plain_identifiers_witness :
    (ch '?' ∉ (sampleClient (sampleResponse 201 scenarioBody)).url ∧
      ch '#' ∉ (sampleClient (sampleResponse 201 scenarioBody)).url) ∧
    (ch '?' ∉ goStr "org-1" ∧ ch '#' ∉ goStr "org-1") ∧
    (ch '?' ∉ goStr "sa-1" ∧ ch '#' ∉ goStr "sa-1") ∧
    (CreateOrganizationServiceAccount sampleLib (sampleClient (sampleResponse 201 scenarioBody))
        (goStr "org-1") scenarioRequest).sent.map
        (fun r => (r.Method, r.URL.Scheme, r.URL.Host, r.URL.Path, r.URL.RawQuery,
          r.URL.Fragment)) =
      [(goStr "POST", goStr "https", goStr "api.example.com",
        goStr "/v3/orgs/org-1/service_accounts", goStr "version=2024-10-15", [])] ∧
    (DeleteOrganizationServiceAccount sampleLib (sampleClient (sampleResponse 201 scenarioBody))
        (goStr "org-1") (goStr "sa-1")).sent.map
        (fun r => (r.Method, r.URL.Scheme, r.URL.Host, r.URL.Path, r.URL.RawQuery,
          r.URL.Fragment)) =
      [(goStr "DELETE", goStr "https", goStr "api.example.com",
        goStr "/v3/orgs/org-1/service_accounts/sa-1", goStr "version=2024-10-15", [])] :=
  ⟨by decide, by decide, by decide,
    (congrArg (List.map (fun r : Request =>
        (r.Method, r.URL.Scheme, r.URL.Host, r.URL.Path, r.URL.RawQuery, r.URL.Fragment)))
      ((request_line_for_plain_identifiers sampleLib
        (sampleClient (sampleResponse 201 scenarioBody)) (goStr "org-1") (goStr "sa-1")
        scenarioRequest (by decide) (by decide)).1
        (renderJSON (envelope scenarioRequest).toJSON ++ [ch '\n']) (by decide) rfl)).trans
      rfl,
    (congrArg (List.map (fun r : Request =>
        (r.Method, r.URL.Scheme, r.URL.Host, r.URL.Path, r.URL.RawQuery, r.URL.Fragment)))
      ((request_line_for_plain_identifiers sampleLib
        (sampleClient (sampleResponse 201 scenarioBody)) (goStr "org-1") (goStr "sa-1")
        scenarioRequest (by decide) (by decide)).2 (by decide) (by decide))).trans
      rfl⟩

/-- C5 as stated fails. For the non-empty organization ID "a?b" Create hands
over a request whose path stops at /v3/orgs/a and whose query holds the rest
of the identifier next to the version; for the non-empty service account ID
"s#x" Delete hands over a request whose path stops at
/v3/orgs/org-1/service_accounts/s, the rest of the identifier being the
fragment; and for the non-empty organization ID made of a line feed, which no
URL may hold, Create hands over no request at all. -/
theorem request_line_counterexample :
    goStr "a?b" ≠ [] ∧ goStr "s#x" ≠ [] ∧ goStr "\n" ≠ [] ∧
    (CreateOrganizationServiceAccount sampleLib (sampleClient (sampleResponse 201 scenarioBody))
        (goStr "a?b") scenarioRequest).sent.map
        (fun r => (r.Method, r.URL.Path, r.URL.RawQuery, r.URL.Fragment)) =
      [(goStr "POST", goStr "/v3/orgs/a",
        goStr "b%2Fservice_accounts=&version=2024-10-15", [])] ∧
    (¬ ∃ req ∈ (CreateOrganizationServiceAccount sampleLib
          (sampleClient (sampleResponse 201 scenarioBody)) (goStr "a?b") scenarioRequest).sent,
        req.URL.Path = goStr "/v3/orgs/" ++ goStr "a?b" ++ goStr "/service_accounts" ∨
        req.URL.RawQuery =
          goStr "version=" ++ QueryEscape (sampleClient (sampleResponse 201 scenarioBody)).version) ∧
    (DeleteOrganizationServiceAccount sampleLib (sampleClient (sampleResponse 204 []))
        (goStr "org-1") (goStr "s#x")).sent.map
        (fun r => (r.Method, r.URL.Path, r.URL.RawQuery, r.URL.Fragment)) =
      [(goStr "DELETE", goStr "/v3/orgs/org-1/service_accounts/s",
        goStr "version=2024-10-15", goStr "x")] ∧
    (¬ ∃ req ∈ (DeleteOrganizationServiceAccount sampleLib
          (sampleClient (sampleResponse 204 [])) (goStr "org-1") (goStr "s#x")).sent,
        req.URL.Path =
          goStr "/v3/orgs/" ++ goStr "org-1" ++ goStr "/service_accounts/" ++ goStr "s#x") ∧
    (CreateOrganizationServiceAccount sampleLib (sampleClient (sampleResponse 201 scenarioBody))
        (goStr "\n") scenarioRequest).sent = [] := by
  refine ⟨by decide, by decide, by decide, by decide, by decide, by decide, by decide,
    by decide⟩

/-! ## The response object of a successful create -/

/-- Decoding a well-formed document yields the values it carries. -/
theorem decodeResponse_wellFormed (lib : GoLib) (v : JValue) (r : ServiceAccountResponse)
    (h : WellFormedDocument lib v r) : decodeResponse lib v = .ok r := by
  obtain ⟨ms, rfl, hms⟩ := h
  exact decode_responseMembers lib ms _ r hms

/-- The document of the scenario is well formed and carries the values of
`scenarioResponse`. -/
theorem scenarioDocument_wellFormed : WellFormedDocument sampleLib scenarioDocument scenarioResponse := by
  refine ⟨_, rfl, by unfold knownMembers; decide, Or.inl ⟨_, rfl, ?_⟩, Or.inr ⟨rfl, rfl⟩,
    Or.inr ⟨rfl, rfl⟩⟩
  refine ⟨by unfold knownMembers; decide, Or.inl ⟨_, rfl, ?_⟩, Or.inl rfl, Or.inr ⟨rfl, rfl⟩,
    Or.inl rfl⟩
  exact ⟨by unfold knownMembers; decide, Or.inr ⟨rfl, rfl⟩, Or.inl rfl, Or.inl rfl, Or.inl rfl,
    Or.inr ⟨rfl, rfl⟩, Or.inl rfl, Or.inl rfl⟩

/-- C2. When Create receives a response with status 201 whose body is read
without error and holds a well-formed JSON:API document, it returns the
response object whose fields are the values the document carries (an absent
member giving the zero value), together with the result of `Close`. -/
theorem create_created_returns_document (lib : GoLib) (c : Client) (orgID : GoString)
    (request : ServiceAccountRequest) (res : Response) (v : JValue)
    (r : ServiceAccountResponse)
    (hres : (CreateOrganizationServiceAccount lib c orgID request).received = some res)
    (hstatus : res.StatusCode = 201)
    (hread : res.Body.readErr = none)
    (hparse : lib.jsonParse res.Body.content = .ok v)
    (hdoc : WellFormedDocument lib v r) :
    (CreateOrganizationServiceAccount lib c orgID request).sar = some r ∧
    (CreateOrganizationServiceAccount lib c orgID request).e = res.Body.closeErr := by
  obtain ⟨req, -, -, hout⟩ := create_received hres
  have hu : unmarshalResponse lib res.Body.content = .ok r := by
    simp only [unmarshalResponse, hparse]
    exact decodeResponse_wellFormed lib v r hdoc
  rw [hout]
  simp [createResult, hstatus, StatusCreated, Body.ReadAll, hread, hu, deferredClose_none]

/-- Instance of C2: the scenario of the specification. The body of the
scenario, received with status 201, yields a response object with the ID
"sa-1" and the client ID "c1", and no error. -/
theorem create_created_returns_document_witness :
    (CreateOrganizationServiceAccount sampleLib (sampleClient (sampleResponse 201 scenarioBody))
        (goStr "org-1") scenarioRequest).received = some (sampleResponse 201 scenarioBody) ∧
    (sampleResponse 201 scenarioBody).StatusCode = 201 ∧
    (sampleResponse 201 scenarioBody).Body.readErr = none ∧
    WellFormedDocument sampleLib scenarioDocument scenarioResponse ∧
    (CreateOrganizationServiceAccount sampleLib (sampleClient (sampleResponse 201 scenarioBody))
        (goStr "org-1") scenarioRequest).sar = some scenarioResponse ∧
    (CreateOrganizationServiceAccount sampleLib (sampleClient (sampleResponse 201 scenarioBody))
        (goStr "org-1") scenarioRequest).e = none ∧
    scenarioResponse.Data.ID = goStr "sa-1" ∧
    scenarioResponse.Data.Attributes.ClientId = goStr "c1" :=
  ⟨by decide, by decide, by decide, scenarioDocument_wellFormed,
    (create_created_returns_document sampleLib (sampleClient (sampleResponse 201 scenarioBody))
      (goStr "org-1") scenarioRequest (sampleResponse 201 scenarioBody) scenarioDocument
      scenarioResponse (by decide) (by decide) (by decide) rfl scenarioDocument_wellFormed).1,
    (create_created_returns_document sampleLib (sampleClient (sampleResponse 201 scenarioBody))
      (goStr "org-1") scenarioRequest (sampleResponse 201 scenarioBody) scenarioDocument
      scenarioResponse (by decide) (by decide) (by decide) rfl scenarioDocument_wellFormed).2,
    by decide, by decide⟩

/-! ## The body of a create request -/

/-- C6. The envelope built around a request has the type "service_account"
and the request itself, unchanged, as attributes, whatever the request; its
JSON structure is an object `data` holding `attributes` and `type`; and the
body of every request Create hands to the transport is the encoding of that
structure. -/
theorem envelope_type_and_attributes (lib : GoLib) (c : Client) (orgID : GoString)
    (request : ServiceAccountRequest) :
    (envelope request).Data.Type_ = goStr "service_account" ∧
    (envelope request).Data.Attributes = request ∧
    (envelope request).toJSON =
      .object [(goStr "data", .object [(goStr "attributes", request.toJSON),
                                       (goStr "type", .string (goStr "service_account"))])] ∧
    (∀ req ∈ (CreateOrganizationServiceAccount lib c orgID request).sent,
      ∃ text, lib.jsonEncode (envelope request).toJSON = .ok text ∧ req.Body = some text) := by
  refine ⟨rfl, rfl, rfl, ?_⟩
  intro req hreq
  rw [create_sent] at hreq
  cases h : createRequest lib c orgID request with
  | error err => simp [h] at hreq
  | ok req1 =>
    simp only [h, List.mem_singleton] at hreq
    subst hreq
    obtain ⟨text, u, henc, -, rfl⟩ := createRequest_ok h
    exact ⟨text, henc, rfl⟩

/-- Instance of C6: the body of the request of the create scenario is the
encoding of the envelope. -/
theorem envelope_type_and_attributes_witness :
    scenarioCreateRequest ∈
      (CreateOrganizationServiceAccount sampleLib (sampleClient (sampleResponse 201 scenarioBody))
        (goStr "org-1") scenarioRequest).sent ∧
    ∃ text, sampleLib.jsonEncode (envelope scenarioRequest).toJSON = .ok text ∧
      scenarioCreateRequest.Body = some text :=
  ⟨by decide,
    (envelope_type_and_attributes sampleLib (sampleClient (sampleResponse 201 scenarioBody))
      (goStr "org-1") scenarioRequest).2.2.2 scenarioCreateRequest (by decide)⟩

/-- C7. The body of every request Create hands to the transport is the
encoding of the object `data` holding `type` and the attributes object, whose
members are `request.members`; and when the library accepts the URL and
encodes that object, Create does hand over one request with that body. The
attributes object always has the members name, role_id and auth_type with the
values of the request; it has the member jwks_url exactly when `JwksURL` is
not empty, and the member access_token_ttl_seconds exactly when
`AccessTokenTTLSeconds` is not zero, each with the value of the request; and
it has no other member. -/
theorem attributes_members_follow_request (lib : GoLib) (c : Client) (orgID : GoString)
    (request : ServiceAccountRequest) :
    ((∀ req ∈ (CreateOrganizationServiceAccount lib c orgID request).sent,
        ∃ text, req.Body = some text ∧
          lib.jsonEncode
            (.object [(goStr "data",
              .object [(goStr "attributes", .object request.members),
                       (goStr "type", .string (goStr "service_account"))])]) = .ok text) ∧
      (∀ text,
        lib.jsonEncode
          (.object [(goStr "data",
            .object [(goStr "attributes", .object request.members),
                     (goStr "type", .string (goStr "service_account"))])]) = .ok text →
        lib.urlSyntaxError
          (c.url ++ goStr "/v3/orgs/" ++ orgID ++ goStr "/service_accounts") = none →
        ∃ req, (CreateOrganizationServiceAccount lib c orgID request).sent = [req] ∧
          req.Body = some text)) ∧
    (envelope request).Data.Attributes.toJSON = .object request.members ∧
    memberOf (goStr "name") request.members = some (.string request.Name) ∧
    memberOf (goStr "role_id") request.members = some (.string request.RoleID) ∧
    memberOf (goStr "auth_type") request.members = some (.string request.AuthType) ∧
    memberOf (goStr "jwks_url") request.members =
      (if request.JwksURL = [] then none else some (.string request.JwksURL)) ∧
    memberOf (goStr "access_token_ttl_seconds") request.members =
      (if request.AccessTokenTTLSeconds = 0 then none
       else some (.number (.int request.AccessTokenTTLSeconds))) ∧
    (goStr "jwks_url" ∈ request.members.map Prod.fst ↔ request.JwksURL ≠ []) ∧
    (goStr "access_token_ttl_seconds" ∈ request.members.map Prod.fst ↔
      request.AccessTokenTTLSeconds ≠ 0) ∧
    request.members.map Prod.fst =
      (if request.AccessTokenTTLSeconds = 0 then [] else [goStr "access_token_ttl_seconds"]) ++
      [goStr "auth_type"] ++
      (if request.JwksURL = [] then [] else [goStr "jwks_url"]) ++
      [goStr "name", goStr "role_id"] := by
  have hne1 : goStr "jwks_url" ∉ [goStr "auth_type", goStr "name", goStr "role_id"] := by decide
  have hne2 : goStr "access_token_ttl_seconds" ∉
      [goStr "auth_type", goStr "name", goStr "role_id"] := by decide
  have hne3 : goStr "jwks_url" ≠ goStr "access_token_ttl_seconds" := by decide
  simp only [List.mem_cons, List.mem_singleton, List.not_mem_nil, or_false, not_or] at hne1 hne2
  have hjson : (envelope request).toJSON =
      .object [(goStr "data",
        .object [(goStr "attributes", .object request.members),
                 (goStr "type", .string (goStr "service_account"))])] := rfl
  refine ⟨⟨?_, ?_⟩, rfl, ?_⟩
  · intro req hreq
    rw [create_sent] at hreq
    cases h : createRequest lib c orgID request with
    | error err => simp [h] at hreq
    | ok req1 =>
      simp only [h, List.mem_singleton] at hreq
      subst hreq
      obtain ⟨text, u, henc, -, rfl⟩ := createRequest_ok h
      exact ⟨text, rfl, hjson ▸ henc⟩
  · intro text henc hurl
    rw [create_sent]
    have henc2 : lib.jsonEncode (envelope request).toJSON = .ok text := hjson ▸ henc
    simp only [createRequest, henc2, NewRequestWithContext, parseURL, hurl]
    exact ⟨_, rfl, rfl⟩
  unfold ServiceAccountRequest.members omitEmptyInt omitEmptyString
  by_cases h1 : request.AccessTokenTTLSeconds = 0 <;> by_cases h2 : request.JwksURL = []
  · simp only [h1, h2, if_true]
    refine ⟨rfl, rfl, rfl, rfl, rfl, ?_, ?_, rfl⟩
    · simp [hne1]
    · simp [hne2]
  · simp only [h1, h2, if_true, if_false]
    refine ⟨rfl, rfl, rfl, rfl, rfl, ?_, ?_, rfl⟩
    · simp [h2]
    · simp [hne2, hne3.symm]
  · simp only [h1, h2, if_true, if_false]
    refine ⟨rfl, rfl, rfl, rfl, rfl, ?_, ?_, rfl⟩
    · simp [hne1, hne3]
    · simp [h1]
  · simp only [h1, h2, if_false]
    refine ⟨rfl, rfl, rfl, rfl, rfl, ?_, ?_, rfl⟩
    · simp [h2]
    · simp [h1]

/-- Instances of C7. The request of the scenario, which has a JWKS URL and no
TTL, is sent with a body whose attributes are auth_type, jwks_url, name and
role_id; the same request with a TTL of 3600 and no JWKS URL is sent with a
body whose attributes are access_token_ttl_seconds, auth_type, name and
role_id. -/
theorem attributes_members_follow_request_witness :
    (scenarioCreateRequest ∈
        (CreateOrganizationServiceAccount sampleLib
          (sampleClient (sampleResponse 201 scenarioBody)) (goStr "org-1")
          scenarioRequest).sent ∧
      ∃ text, scenarioCreateRequest.Body = some text ∧
        sampleLib.jsonEncode
          (.object [(goStr "data",
            .object [(goStr "attributes", .object scenarioRequest.members),
                     (goStr "type", .string (goStr "service_account"))])]) = .ok text) ∧
    (CreateOrganizationServiceAccount sampleLib
        (sampleClient (sampleResponse 201 scenarioBody)) (goStr "org-1")
        scenarioRequest).sent.map (fun r => r.Body) =
      [some (goStr ("\x7b\"data\":\x7b\"attributes\":\x7b\"auth_type\":\"jwt\"," ++
        "\"jwks_url\":\"https://example.com/jwks\",\"name\":\"svc1\"," ++
        "\"role_id\":\"role-123\"\x7d,\"type\":\"service_account\"\x7d\x7d\n"))] ∧
    (CreateOrganizationServiceAccount sampleLib
        (sampleClient (sampleResponse 201 scenarioBody)) (goStr "org-1")
        { scenarioRequest with AccessTokenTTLSeconds := 3600, JwksURL := [] }).sent.map
        (fun r => r.Body) =
      [some (goStr ("\x7b\"data\":\x7b\"attributes\":\x7b\"access_token_ttl_seconds\":3600," ++
        "\"auth_type\":\"jwt\",\"name\":\"svc1\"," ++
        "\"role_id\":\"role-123\"\x7d,\"type\":\"service_account\"\x7d\x7d\n"))] ∧
    scenarioRequest.members.map Prod.fst =
      [goStr "auth_type", goStr "jwks_url", goStr "name", goStr "role_id"] ∧
    ({ scenarioRequest with AccessTokenTTLSeconds := 3600, JwksURL := [] } :
        ServiceAccountRequest).members.map Prod.fst =
      [goStr "access_token_ttl_seconds", goStr "auth_type", goStr "name", goStr "role_id"] :=
  ⟨⟨by decide,
      (attributes_members_follow_request sampleLib
        (sampleClient (sampleResponse 201 scenarioBody)) (goStr "org-1")
        scenarioRequest).1.1 scenarioCreateRequest (by decide)⟩,
    by decide, by decide,
    (attributes_members_follow_request sampleLib
      (sampleClient (sampleResponse 201 scenarioBody)) (goStr "org-1")
      scenarioRequest).2.2.2.2.2.2.2.2.2.trans (by decide),
    (attributes_members_follow_request sampleLib
      (sampleClient (sampleResponse 201 scenarioBody)) (goStr "org-1")
      { scenarioRequest with AccessTokenTTLSeconds := 3600, JwksURL := [] }).2.2.2.2.2.2.2.2.2.trans
      (by decide)⟩

end Organization
